import Mathlib

/-!
Verification of the `reagent.ilpas` configuration store
(`src/reagent/ilpas/core/store.py` and `src/reagent/ilpas/dx/in_memory_store.py`).

Python dictionaries are modelled as insertion-ordered association lists
(`Dict α β := List (α × β)`), Python `set` objects over primary keys as
`Finset String`, and exceptions as an explicit error type threaded through
`Except`.  Every operation returns its result together with the store state
reached when it returns or raises, so that partial mutation before a raise
is observable.  Crucially, the in-place `intersection_update` aliasing in
`InMemoryStore._find_primary_keys_by_labels` (the running set aliases either
a guid-index bucket or the first contributing label-index bucket, and
`intersection_update` mutates that bucket) is modelled explicitly by
threading the namespace state through the search loop.
-/

namespace Ilpas

/-! ### Association-list dictionaries (Python `dict`) -/

/-- Insertion-ordered dictionary, as a Python `dict`: a list of key/value
pairs in which lookups see the first binding of a key. -/
abbrev Dict (α β : Type) := List (α × β)

/-- `d[k]` as an option (`None` when the key is absent). -/
def lookupKey {α β : Type} [DecidableEq α] : Dict α β → α → Option β
  | [], _ => none
  | (k', v) :: rest, k => if k' = k then some v else lookupKey rest k

/-- `d[k] = v`: update in place when the key exists (keeping its position),
append at the end otherwise — Python `dict` assignment semantics. -/
def setKey {α β : Type} [DecidableEq α] : Dict α β → α → β → Dict α β
  | [], k, v => [(k, v)]
  | (k', v') :: rest, k, v =>
      if k' = k then (k, v) :: rest else (k', v') :: setKey rest k v

/-- `del d[k]` / `d.pop(k, None)`: remove the first binding of `k`. -/
def removeKey {α β : Type} [DecidableEq α] : Dict α β → α → Dict α β
  | [], _ => []
  | (k', v') :: rest, k =>
      if k' = k then rest else (k', v') :: removeKey rest k

/-- The keys of a dictionary, in insertion order. -/
def keysOf {α β : Type} (d : Dict α β) : List α := d.map Prod.fst

@[simp] theorem lookupKey_nil {α β : Type} [DecidableEq α] (k : α) :
    lookupKey ([] : Dict α β) k = none := rfl

@[simp] theorem lookupKey_cons {α β : Type} [DecidableEq α]
    (k' : α) (v : β) (rest : Dict α β) (k : α) :
    lookupKey ((k', v) :: rest) k = if k' = k then some v else lookupKey rest k := rfl

@[simp] theorem setKey_nil {α β : Type} [DecidableEq α] (k : α) (v : β) :
    setKey ([] : Dict α β) k v = [(k, v)] := rfl

@[simp] theorem setKey_cons {α β : Type} [DecidableEq α]
    (k' : α) (v' : β) (rest : Dict α β) (k : α) (v : β) :
    setKey ((k', v') :: rest) k v =
      if k' = k then (k, v) :: rest else (k', v') :: setKey rest k v := rfl

@[simp] theorem removeKey_nil {α β : Type} [DecidableEq α] (k : α) :
    removeKey ([] : Dict α β) k = [] := rfl

@[simp] theorem removeKey_cons {α β : Type} [DecidableEq α]
    (k' : α) (v' : β) (rest : Dict α β) (k : α) :
    removeKey ((k', v') :: rest) k =
      if k' = k then rest else (k', v') :: removeKey rest k := rfl

@[simp] theorem lookupKey_setKey_self {α β : Type} [DecidableEq α]
    (d : Dict α β) (k : α) (v : β) : lookupKey (setKey d k v) k = some v := by
  induction d with
  | nil => simp [setKey]
  | cons hd tl ih =>
      obtain ⟨k', v'⟩ := hd
      by_cases h : k' = k
      · simp [setKey, h]
      · simp [setKey, h, ih]

theorem lookupKey_setKey_ne {α β : Type} [DecidableEq α]
    (d : Dict α β) (k k' : α) (v : β) (h : k ≠ k') :
    lookupKey (setKey d k v) k' = lookupKey d k' := by
  induction d with
  | nil => simp [setKey, h]
  | cons hd tl ih =>
      obtain ⟨k0, v0⟩ := hd
      by_cases h0 : k0 = k
      · subst h0; simp [setKey, h]
      · simp [setKey, h0, ih]

/-- Re-assigning the value a key already holds leaves the dictionary
unchanged (this is what makes the aliasing model line up at seeding time). -/
theorem setKey_self_of_lookup {α β : Type} [DecidableEq α]
    (d : Dict α β) (k : α) (v : β) (h : lookupKey d k = some v) :
    setKey d k v = d := by
  induction d with
  | nil => simp [lookupKey] at h
  | cons hd tl ih =>
      obtain ⟨k0, v0⟩ := hd
      by_cases h0 : k0 = k
      · subst h0
        simp [lookupKey] at h
        simp [setKey, h]
      · simp [lookupKey, h0] at h
        simp [setKey, h0, ih h]

theorem setKey_setKey_same {α β : Type} [DecidableEq α]
    (d : Dict α β) (k : α) (v v' : β) :
    setKey (setKey d k v) k v' = setKey d k v' := by
  induction d with
  | nil => simp [setKey]
  | cons hd tl ih =>
      obtain ⟨k0, v0⟩ := hd
      by_cases h0 : k0 = k
      · simp [setKey, h0]
      · simp [setKey, h0, ih]

theorem lookupKey_eq_none_of_not_mem_keys {α β : Type} [DecidableEq α]
    (d : Dict α β) (k : α) (h : k ∉ keysOf d) : lookupKey d k = none := by
  induction d with
  | nil => simp [lookupKey]
  | cons hd tl ih =>
      obtain ⟨k0, v0⟩ := hd
      simp only [keysOf, List.map_cons, List.mem_cons, not_or] at h
      simp [lookupKey, Ne.symm h.1, ih h.2]

theorem lookupKey_removeKey_self {α β : Type} [DecidableEq α]
    (d : Dict α β) (k : α) (h : (keysOf d).Nodup) :
    lookupKey (removeKey d k) k = none := by
  induction d with
  | nil => simp [removeKey]
  | cons hd tl ih =>
      obtain ⟨k0, v0⟩ := hd
      simp only [keysOf, List.map_cons, List.nodup_cons] at h
      by_cases h0 : k0 = k
      · subst h0
        simp only [removeKey, if_pos rfl]
        exact lookupKey_eq_none_of_not_mem_keys tl k0 h.1
      · simp [removeKey, h0, lookupKey, ih h.2]

theorem lookupKey_removeKey_ne {α β : Type} [DecidableEq α]
    (d : Dict α β) (k k' : α) (h : k ≠ k') :
    lookupKey (removeKey d k) k' = lookupKey d k' := by
  induction d with
  | nil => simp [removeKey]
  | cons hd tl ih =>
      obtain ⟨k0, v0⟩ := hd
      by_cases h0 : k0 = k
      · subst h0
        simp [h]
      · simp [h0, ih]

theorem keysOf_setKey {α β : Type} [DecidableEq α]
    (d : Dict α β) (k : α) (v : β) {v' : β} (h : lookupKey d k = some v') :
    keysOf (setKey d k v) = keysOf d := by
  induction d with
  | nil => simp [lookupKey] at h
  | cons hd tl ih =>
      obtain ⟨k0, v0⟩ := hd
      by_cases h0 : k0 = k
      · subst h0; simp [setKey, keysOf]
      · simp only [lookupKey_cons, if_neg h0] at h
        simp [setKey, h0, keysOf] at ih ⊢
        exact ih h

theorem keysOf_setKey_new {α β : Type} [DecidableEq α]
    (d : Dict α β) (k : α) (v : β) (h : lookupKey d k = none) :
    keysOf (setKey d k v) = keysOf d ++ [k] := by
  induction d with
  | nil => simp [setKey, keysOf]
  | cons hd tl ih =>
      obtain ⟨k0, v0⟩ := hd
      by_cases h0 : k0 = k
      · subst h0; simp [lookupKey] at h
      · simp only [lookupKey_cons, if_neg h0] at h
        simp [setKey, h0, keysOf] at ih ⊢
        exact ih h

theorem lookupKey_isSome_of_mem_keys {α β : Type} [DecidableEq α]
    (d : Dict α β) (k : α) (h : k ∈ keysOf d) : (lookupKey d k).isSome := by
  induction d with
  | nil => simp [keysOf] at h
  | cons hd tl ih =>
      obtain ⟨k0, v0⟩ := hd
      by_cases h0 : k0 = k
      · simp [lookupKey, h0]
      · simp only [keysOf, List.map_cons, List.mem_cons] at h
        rcases h with h | h
        · exact absurd h.symm h0
        · simp [lookupKey, h0, ih h]

theorem nodup_keysOf_setKey {α β : Type} [DecidableEq α]
    (d : Dict α β) (k : α) (v : β) (h : (keysOf d).Nodup) :
    (keysOf (setKey d k v)).Nodup := by
  cases hl : lookupKey d k with
  | some v' => rw [keysOf_setKey d k v hl]; exact h
  | none =>
      rw [keysOf_setKey_new d k v hl]
      have hk : k ∉ keysOf d := by
        intro hm
        have := lookupKey_isSome_of_mem_keys d k hm
        rw [hl] at this
        exact absurd this (by simp)
      refine List.Nodup.append h (List.nodup_singleton k) ?_
      intro a ha hb
      rw [List.mem_singleton] at hb
      subst hb
      exact hk ha

theorem mem_keys_of_lookupKey_isSome {α β : Type} [DecidableEq α]
    (d : Dict α β) (k : α) (h : (lookupKey d k).isSome) : k ∈ keysOf d := by
  induction d with
  | nil => simp [lookupKey] at h
  | cons hd tl ih =>
      obtain ⟨k0, v0⟩ := hd
      by_cases h0 : k0 = k
      · simp [keysOf, h0]
      · simp only [lookupKey_cons, if_neg h0] at h
        simp only [keysOf, List.map_cons, List.mem_cons]
        exact Or.inr (ih h)

/-! ### Label values and labels (`core/models/types.py`)

`LabelValue = Union[str, int, float, bool, None]`.  Floats are modelled by
rationals; none of the verified claims exercises Python's cross-type
numeric equality (`1 == 1.0 == True`), so the constructors are kept
disjoint. -/

inductive LabelValue where
  | vstr (s : String)
  | vint (n : Int)
  | vfloat (q : Rat)
  | vbool (b : Bool)
  | vnone
deriving DecidableEq, Repr

/-- `Labels = Dict[str, LabelValue]`. -/
abbrev Labels := Dict String LabelValue

/-! ### Payloads (`core/models/types.py`)

`Obj` stands for an arbitrary JSON object (the store never inspects the
`user`/`admin`/`callback`/`state` objects, it only serializes them). -/

/-- `ValueDict`: the config bundle handed to `put_*`; `callback` and
`state` are optional dict entries, modelled as `Option`. -/
structure ValueDict (Obj : Type) where
  user : Obj
  admin : Obj
  callback : Option Obj
  state : Option Obj
deriving DecidableEq, Repr

/-- `HashDict`: `{"hash": <hex digest>}`. -/
structure HashDict where
  hash : String
deriving DecidableEq, Repr

/-- `HashedValueDict`: the transformed bundle that actually gets
serialized and encrypted; `admin` has been replaced by its hash. -/
structure HashedValueDict (Obj : Type) where
  user : Obj
  admin : HashDict
  callback : Option Obj
  state : Option Obj
deriving DecidableEq, Repr

/-! ### Fernet / MultiFernet (the `cryptography` library)

Authenticated symmetric encryption is modelled at the level of its
documented contract: a token decrypts under exactly the key that produced
it.  The serialization `json.dumps`/`json.loads` round trip applied to the
transformed bundle is modelled structurally (the payload is carried as the
`HashedValueDict` itself). -/

/-- A Fernet token: ciphertext produced under `key` carrying `payload`. -/
structure FernetToken (P : Type) where
  key : String
  payload : P
deriving DecidableEq, Repr

/-- `Fernet(key).encrypt(p)`. -/
def Fernet.encrypt {P : Type} (key : String) (p : P) : FernetToken P :=
  ⟨key, p⟩

/-- `Fernet(key).decrypt(t)`: succeeds exactly when the token was built
under `key` (authenticated decryption). -/
def Fernet.decrypt {P : Type} (key : String) (t : FernetToken P) : Option P :=
  if t.key = key then some t.payload else none

/-- `MultiFernet(fernets).decrypt(t)`: try each key in order, return the
first success, fail (`InvalidToken`) when no key succeeds. -/
def MultiFernet.decrypt {P : Type} : List String → FernetToken P → Option P
  | [], _ => none
  | k :: rest, t =>
      match Fernet.decrypt k t with
      | some p => some p
      | none => MultiFernet.decrypt rest t

/-! ### Store configuration (`Store.__init__`, `core/store.py` lines 30-50) -/

/-- Immutable per-store data: the encryption keys, the default namespace,
and the ambient primitives (`base64` re-encoding, `json.dumps` with sorted
keys, and hex SHA-256) which are modelled as abstract functions. -/
structure StoreConfig (Obj : Type) where
  /-- `primary_encryption_key` argument. -/
  primaryKey : String
  /-- `secondary_encryption_keys` argument with `None` collapsed to `[]`. -/
  secondaryKeys : List String
  /-- `default_namespace` argument (the string "default" unless overridden). -/
  defaultNamespace : String
  /-- `base64.urlsafe_b64encode(base64.b64decode(key))`, abstract. -/
  formatKey : String → String
  /-- `json.dumps(obj, sort_keys=True)` on a JSON object, abstract. -/
  dumps : Obj → String
  /-- `sha256(bytes).hexdigest()`, abstract. -/
  sha256hex : String → String

/-- `[primary_encryption_key] + additional_keys`, each run through the
base64 re-encoding; the `MultiFernet` is built over these in order. -/
def StoreConfig.encryptionKeys {Obj : Type} (cfg : StoreConfig Obj) : List String :=
  (cfg.primaryKey :: cfg.secondaryKeys).map cfg.formatKey

/-! ### `Store._encrypt` / `Store._decrypt` (`core/store.py` lines 257-298) -/

/-- The transformed bundle built inside `_encrypt`: `admin` is replaced by
`{"hash": sha256(json.dumps(admin, sort_keys=True)).hexdigest()}`, while
`user` is kept and `callback`/`state` are kept when present. -/
def Store.hashValue {Obj : Type} (cfg : StoreConfig Obj) (v : ValueDict Obj) :
    HashedValueDict Obj :=
  { user := v.user
    admin := ⟨cfg.sha256hex (cfg.dumps v.admin)⟩
    callback := v.callback
    state := v.state }

/-- `Store._encrypt`: hash the admin object, then encrypt the serialized
transformed bundle with the encryptor (`MultiFernet.encrypt`, which always
uses the first = primary key). -/
def Store.encryptValue {Obj : Type} (cfg : StoreConfig Obj) (v : ValueDict Obj) :
    FernetToken (HashedValueDict Obj) :=
  Fernet.encrypt (cfg.formatKey cfg.primaryKey) (Store.hashValue cfg v)

/-- `Store._decrypt`: authenticated decryption trying each configured key
in order; `none` models the `InvalidToken` exception. -/
def Store.decryptValue {Obj : Type} (cfg : StoreConfig Obj)
    (t : FernetToken (HashedValueDict Obj)) : Option (HashedValueDict Obj) :=
  MultiFernet.decrypt cfg.encryptionKeys t

/-! ### Stored records and namespace state (`dx/in_memory_store.py`) -/

/-- `StoreModel`: one stored record (`encrypted_value`, `labels`, `guid`). -/
structure StoreModel (Obj : Type) where
  encrypted_value : FernetToken (HashedValueDict Obj)
  labels : Labels
  guid : String
deriving DecidableEq, Repr

/-- The per-namespace slice of `InMemoryStore`'s three dictionaries
(`self.store[ns]`, `self.label_index[ns]`, `self.guid_index[ns]`). -/
structure NamespaceState (Obj : Type) where
  store : Dict String (StoreModel Obj)
  label_index : Dict String (Dict LabelValue (Finset String))
  guid_index : Dict String (Finset String)
deriving DecidableEq

/-- A freshly created namespace (`_create_namespace`). -/
def NamespaceState.empty (Obj : Type) : NamespaceState Obj := ⟨[], [], []⟩

/-- The label-index bucket `label_index[k][v]`, when present. -/
def bucketGet {Obj : Type} (ns : NamespaceState Obj) (k : String) (v : LabelValue) :
    Option (Finset String) :=
  (lookupKey ns.label_index k).bind (fun bm => lookupKey bm v)

/-- The label-index bucket, defaulting to the empty set when absent. -/
def bucketGetD {Obj : Type} (ns : NamespaceState Obj) (k : String) (v : LabelValue) :
    Finset String :=
  (bucketGet ns k v).getD ∅

/-- The guid-index bucket, defaulting to the empty set when absent. -/
def guidGetD {Obj : Type} (ns : NamespaceState Obj) (g : String) : Finset String :=
  (lookupKey ns.guid_index g).getD ∅

/-- `set(self.store[namespace].keys())`. -/
def storeKeys {Obj : Type} (ns : NamespaceState Obj) : Finset String :=
  (keysOf ns.store).toFinset

/-! ### `InMemoryStore._find_primary_keys_by_labels` (lines 96-137)

In the source, `matching_primary_keys` starts out as a *reference* to a
live index bucket (the guid bucket when a guid is given, otherwise the
first label bucket found), and `intersection_update` narrows that bucket
in place.  The model tracks which bucket the running set aliases and
writes every narrowing back into the namespace state. -/

/-- Which live bucket the running `matching_primary_keys` set aliases. -/
inductive AliasTarget where
  | guidBucket (g : String)
  | labelBucket (k : String) (v : LabelValue)
deriving DecidableEq, Repr

/-- Overwrite the aliased bucket with the narrowed set (the effect of
`intersection_update` on the underlying bucket object). -/
def writeTarget {Obj : Type} (ns : NamespaceState Obj) (t : AliasTarget)
    (s : Finset String) : NamespaceState Obj :=
  match t with
  | .guidBucket g => { ns with guid_index := setKey ns.guid_index g s }
  | .labelBucket k v =>
      match lookupKey ns.label_index k with
      | none => ns
      | some bm => { ns with label_index := setKey ns.label_index k (setKey bm v s) }

/-- The `for label_key, label_value in labels.items()` loop.  `acc` is
`matching_primary_keys` paired with the bucket it aliases (the loop only
ever holds an aliased set); returns the final `matching_primary_keys`
(`none` when it is still Python `None`) and the namespace state after the
in-place narrowings.  `bucketGet … = none` is exactly the source's pair of
`continue` guards (`label_key not in label_index` /
`label_value not in label_index[label_key]`). -/
def findLoop {Obj : Type} (ns : NamespaceState Obj)
    (acc : Option (AliasTarget × Finset String)) :
    List (String × LabelValue) → Option (Finset String) × NamespaceState Obj
  | [] => (acc.map Prod.snd, ns)
  | (k, v) :: rest =>
      match bucketGet ns k v with
      | none => findLoop ns acc rest
      | some current =>
          match acc with
          | none => findLoop ns (some (.labelBucket k v, current)) rest
          | some (t, matching) =>
              let narrowed := matching ∩ current
              findLoop (writeTarget ns t narrowed) (some (t, narrowed)) rest

/-- `_find_primary_keys_by_labels`, returning the result set and the
namespace state after the loop (the `deepcopy` on return is value
semantics here). -/
def findPrimaryKeysByLabels {Obj : Type} (ns : NamespaceState Obj)
    (guid : Option String) (labels : Labels) :
    Finset String × NamespaceState Obj :=
  if labels = [] ∧ guid = none then (storeKeys ns, ns)
  else
    match guid with
    | some g =>
        match lookupKey ns.guid_index g with
        | none => (∅, ns)
        | some b =>
            match findLoop ns (some (.guidBucket g, b)) labels with
            | (some m, ns') => (m, ns')
            | (none, ns') => (∅, ns')
    | none =>
        match findLoop ns none labels with
        | (some m, ns') => (m, ns')
        | (none, ns') => (∅, ns')

/-! ### Index maintenance (`dx/in_memory_store.py` lines 171-236) -/

/-- The bucket half of one back-fill iteration in `_add_new_label` (line
182): `label_index[namespace][label_key][None].add(pkey)`. -/
def backfillBucket {Obj : Type} (label_key pkey : String)
    (acc : NamespaceState Obj) : NamespaceState Obj :=
  match lookupKey acc.label_index label_key with
  | none => acc
  | some bm =>
      match lookupKey bm LabelValue.vnone with
      | none => acc
      | some b =>
          let bm2 := setKey bm LabelValue.vnone (insert pkey b)
          { acc with label_index := setKey acc.label_index label_key bm2 }

/-- The record half of one back-fill iteration in `_add_new_label` (line
183): `store[namespace][pkey]["labels"][label_key] = None`. -/
def backfillStore {Obj : Type} (label_key pkey : String)
    (acc : NamespaceState Obj) : NamespaceState Obj :=
  match lookupKey acc.store pkey with
  | none => acc
  | some m =>
      let m2 := { m with labels := setKey m.labels label_key LabelValue.vnone }
      { acc with store := setKey acc.store pkey m2 }

/-- One iteration of the back-fill loop in `_add_new_label` (lines
180-183): skip the record being indexed; add every other record to the
`None` bucket of the new key and write `label_key -> None` into its stored
labels. -/
def backfillOne {Obj : Type} (label_key primary_key : String)
    (acc : NamespaceState Obj) (pkey : String) : NamespaceState Obj :=
  if pkey = primary_key then acc
  else backfillStore label_key pkey (backfillBucket label_key pkey acc)

/-- `_add_new_label` (lines 171-183): create the key with a `None` bucket
when absent, then back-fill every other existing record. -/
def addNewLabel {Obj : Type} (ns : NamespaceState Obj)
    (label_key : String) (primary_key : String) : NamespaceState Obj :=
  let ns1 :=
    if (lookupKey ns.label_index label_key).isSome then ns
    else { ns with label_index := setKey ns.label_index label_key [(.vnone, ∅)] }
  (keysOf ns1.store).foldl (backfillOne label_key primary_key) ns1

/-- The guid half of `_index_labels` (lines 197-199), with `_add_new_guid`
(lines 185-191) inlined: creating an absent bucket as the empty set and
then adding the key is one `setKey` with `insert` into the
absent-defaulted bucket (`guidGetD`), and adding to a present bucket is
the same write. -/
def indexGuid {Obj : Type} (ns : NamespaceState Obj) (primary_key guid : String) :
    NamespaceState Obj :=
  { ns with guid_index := setKey ns.guid_index guid (insert primary_key (guidGetD ns guid)) }

/-- The tail of one iteration of the label loop in `_index_labels` (lines
207-210), after the new-key back-fill: creating an absent value bucket as
the empty set and then adding the primary key collapses to one `setKey`
with `insert` into the absent-defaulted bucket. -/
def indexIntoBucket {Obj : Type} (ns1 : NamespaceState Obj) (primary_key : String)
    (k : String) (v : LabelValue) : NamespaceState Obj :=
  match lookupKey ns1.label_index k with
  | none => ns1
  | some bm =>
      let bm2 := setKey bm v (insert primary_key ((lookupKey bm v).getD ∅))
      { ns1 with label_index := setKey ns1.label_index k bm2 }

/-- One iteration of the label loop in `_index_labels` (lines 201-210). -/
def indexOneLabel {Obj : Type} (ns : NamespaceState Obj) (primary_key : String)
    (k : String) (v : LabelValue) : NamespaceState Obj :=
  let ns1 :=
    if (lookupKey ns.label_index k).isSome then ns
    else addNewLabel ns k primary_key
  indexIntoBucket ns1 primary_key k v

/-- `_index_labels` (lines 193-210). -/
def indexLabels {Obj : Type} (ns : NamespaceState Obj) (primary_key : String)
    (guid : String) (labels : Labels) : NamespaceState Obj :=
  labels.foldl (fun acc kv => indexOneLabel acc primary_key kv.1 kv.2)
    (indexGuid ns primary_key guid)

/-- One iteration of the label loop in `_deindex_labels` (lines 223-236). -/
def deindexOne {Obj : Type} (primary_key : String) (acc : NamespaceState Obj)
    (kv : String × LabelValue) : NamespaceState Obj :=
  match lookupKey acc.label_index kv.1 with
  | none => acc
  | some bm =>
      match lookupKey bm kv.2 with
      | none => acc
      | some b =>
          let b' := b.erase primary_key
          let bm' := if b' = ∅ then removeKey bm kv.2 else setKey bm kv.2 b'
          if bm' = [] then { acc with label_index := removeKey acc.label_index kv.1 }
          else { acc with label_index := setKey acc.label_index kv.1 bm' }

/-- `_deindex_labels` (lines 212-236): discard from the guid bucket and
every matching label bucket, pruning empty buckets and empty label keys. -/
def deindexLabels {Obj : Type} (ns : NamespaceState Obj) (primary_key : String)
    (guid : String) (labels : Labels) : NamespaceState Obj :=
  let ns1 :=
    match lookupKey ns.guid_index guid with
    | none => ns
    | some b =>
        let b' := b.erase primary_key
        if b' = ∅ then { ns with guid_index := removeKey ns.guid_index guid }
        else { ns with guid_index := setKey ns.guid_index guid b' }
  labels.foldl (deindexOne primary_key) ns1

/-! ### Errors (`core/models/errors.py`) and single-match helpers -/

/-- The exceptions the store can raise.  `keyError` is a raw Python
`KeyError` escaping from a dictionary access; `runtime` covers
`RuntimeError("UUID collision")` and states unreachable in the source
(namespaces the caller has just validated). -/
inductive StoreError where
  | notFound
  | conflict
  | badData
  | ilpasValue
  | keyError
  | runtime
deriving DecidableEq, Repr

instance exceptDecEq {ε α : Type} [DecidableEq ε] [DecidableEq α] :
    DecidableEq (Except ε α)
  | .error e, .error e' => decidable_of_iff (e = e') (by simp)
  | .error _, .ok _ => isFalse (by simp)
  | .ok _, .error _ => isFalse (by simp)
  | .ok a, .ok a' => decidable_of_iff (a = a') (by simp)

/-! ### A canonical enumeration of primary-key sets

Python iterates sets in an unspecified order; the model enumerates them in
a fixed lexicographic order (a deliberate modelling choice — callers of
`search` treat the result as a set, and `next(iter(s))` is only taken on
singletons, where every order agrees).  The order is built from scratch so
that it evaluates inside the kernel. -/

/-- Lexicographic comparison of character-code lists. -/
def charsLe : List Nat → List Nat → Bool
  | [], _ => true
  | _ :: _, [] => false
  | a :: as, b :: bs =>
      if a < b then true else if b < a then false else charsLe as bs

/-- Lexicographic `≤` on strings via character codes. -/
def strLeB (a b : String) : Bool :=
  charsLe (a.data.map Char.toNat) (b.data.map Char.toNat)

/-- `strLeB` as a relation. -/
def strRel : String → String → Prop := fun a b => strLeB a b = true

instance : DecidableRel strRel := fun a b => instDecidableEqBool (strLeB a b) true

theorem charsLe_total (as bs : List Nat) : charsLe as bs = true ∨ charsLe bs as = true := by
  induction as generalizing bs with
  | nil => left; cases bs <;> rfl
  | cons a as ih =>
      cases bs with
      | nil => right; rfl
      | cons b bs =>
          rcases Nat.lt_trichotomy a b with h | h | h
          · left; simp [charsLe, h]
          · subst h; simpa [charsLe] using ih bs
          · right; simp [charsLe, h, Nat.lt_asymm h]

theorem charsLe_trans {as bs cs : List Nat} (h1 : charsLe as bs = true)
    (h2 : charsLe bs cs = true) : charsLe as cs = true := by
  induction as generalizing bs cs with
  | nil => cases cs <;> rfl
  | cons a as ih =>
      cases bs with
      | nil => simp [charsLe] at h1
      | cons b bs =>
          cases cs with
          | nil => simp [charsLe] at h2
          | cons c cs =>
              simp only [charsLe] at h1 h2 ⊢
              by_cases hab : a < b
              · simp only [if_pos hab] at h1
                by_cases hbc : b < c
                · simp [Nat.lt_trans hab hbc]
                · simp only [if_neg hbc] at h2
                  by_cases hcb : c < b
                  · simp [if_pos hcb] at h2
                  · have hbc' : b = c :=
                      Nat.le_antisymm (Nat.le_of_not_lt hcb) (Nat.le_of_not_lt hbc)
                    subst hbc'
                    simp [hab]
              · simp only [if_neg hab] at h1
                by_cases hba : b < a
                · simp [if_pos hba] at h1
                · have hab' : a = b :=
                    Nat.le_antisymm (Nat.le_of_not_lt hba) (Nat.le_of_not_lt hab)
                  subst hab'
                  simp only [if_neg (Nat.lt_irrefl a)] at h1
                  by_cases hac : a < c
                  · simp [hac]
                  · simp only [if_neg hac] at h2 ⊢
                    by_cases hca : c < a
                    · simp [if_pos hca] at h2
                    · simp only [if_neg hca] at h2 ⊢
                      exact ih h1 h2

theorem charsLe_antisymm {as bs : List Nat} (h1 : charsLe as bs = true)
    (h2 : charsLe bs as = true) : as = bs := by
  induction as generalizing bs with
  | nil =>
      cases bs with
      | nil => rfl
      | cons b bs => simp [charsLe] at h2
  | cons a as ih =>
      cases bs with
      | nil => simp [charsLe] at h1
      | cons b bs =>
          simp only [charsLe] at h1 h2
          by_cases hab : a < b
          · simp [if_pos hab, if_neg (Nat.lt_asymm hab)] at h2
          · by_cases hba : b < a
            · simp [if_pos hba, if_neg hab] at h1
            · have hab' : a = b :=
                Nat.le_antisymm (Nat.le_of_not_lt hba) (Nat.le_of_not_lt hab)
              subst hab'
              simp only [if_neg (Nat.lt_irrefl a)] at h1 h2
              rw [ih h1 h2]

instance : IsTotal String strRel :=
  ⟨fun a b => charsLe_total (a.data.map Char.toNat) (b.data.map Char.toNat)⟩

instance : IsTrans String strRel :=
  ⟨fun _ _ _ h1 h2 => charsLe_trans h1 h2⟩

instance : IsAntisymm String strRel := by
  refine ⟨fun a b h1 h2 => ?_⟩
  have hd : a.data.map Char.toNat = b.data.map Char.toNat := charsLe_antisymm h1 h2
  have hdata : a.data = b.data := by
    refine List.map_injective_iff.mpr ?_ hd
    intro c d h
    exact Char.eq_of_val_eq (UInt32.toNat.inj h)
  cases a; cases b
  exact congrArg String.mk (by simpa using hdata)

/-- Enumerate a finite set of primary keys in the canonical order (a
structural insertion sort, lifted over the permutation quotient). -/
def sortedList (s : Finset String) : List String :=
  Quot.liftOn s.val (fun l => List.insertionSort strRel l)
    (fun l1 l2 h =>
      List.eq_of_perm_of_sorted
        (((List.perm_insertionSort strRel l1).trans h).trans
          (List.perm_insertionSort strRel l2).symm)
        (List.sorted_insertionSort strRel l1) (List.sorted_insertionSort strRel l2))

theorem mem_sortedList (s : Finset String) (a : String) :
    a ∈ sortedList s ↔ a ∈ s := by
  obtain ⟨m, hnd⟩ := s
  induction m using Quot.inductionOn with
  | h l =>
      show a ∈ List.insertionSort strRel l ↔ _
      rw [(List.perm_insertionSort strRel l).mem_iff]
      simp [Finset.mem_def]

theorem sortedList_singleton (x : String) : sortedList {x} = [x] := rfl

/-- `next(iter(s))` on a set of primary keys; it is only ever evaluated on
singletons (guarded by `len == 1`), where the choice is forced. -/
def pickOne (s : Finset String) : String :=
  (sortedList s).headD ""

theorem pickOne_singleton (x : String) : pickOne {x} = x := rfl

theorem pickOne_of_card_one {s : Finset String} (h : s.card = 1) :
    s = {pickOne s} := by
  obtain ⟨x, hx⟩ := Finset.card_eq_one.mp h
  subst hx
  rw [pickOne_singleton]

/-- `Store._ensure_single_match` (lines 235-244). -/
def ensureSingleMatch (s : Finset String) : Except StoreError String :=
  if 1 < s.card then .error .conflict
  else if s.card = 0 then .error .notFound
  else .ok (pickOne s)

/-- `Store._ensure_single_or_no_match` (lines 246-255). -/
def ensureSingleOrNoMatch (s : Finset String) : Except StoreError (Option String) :=
  if 1 < s.card then .error .conflict
  else if s.card = 0 then .ok none
  else .ok (some (pickOne s))

/-! ### Record-level backend operations (`dx/in_memory_store.py`) -/

/-- `InMemoryStore._delete` (lines 238-253): pop the record, then deindex
its guid and labels.  The primary key is guaranteed by the caller to
exist; an absent key would be a `KeyError`, left as the unchanged state
here because the public API never reaches it. -/
def nsDelete {Obj : Type} (ns : NamespaceState Obj) (primary_key : String) :
    NamespaceState Obj :=
  match lookupKey ns.store primary_key with
  | none => ns
  | some m =>
      let ns1 := { ns with store := removeKey ns.store primary_key }
      deindexLabels ns1 primary_key m.guid m.labels

/-- `InMemoryStore._update_existing_pkey` (lines 255-280): raise
`BadDataError` when the stored guid differs from the new model's guid —
before any mutation — otherwise deindex the old labels, overwrite the
record, and reindex the new labels. -/
def updateExistingPkey {Obj : Type} (ns : NamespaceState Obj) (primary_key : String)
    (model : StoreModel Obj) : Except StoreError (String × NamespaceState Obj) :=
  match lookupKey ns.store primary_key with
  | none => .error .keyError
  | some cur =>
      if cur.guid ≠ model.guid then .error .badData
      else
        let ns1 := deindexLabels ns primary_key model.guid cur.labels
        let ns2 := { ns1 with store := setKey ns1.store primary_key model }
        .ok (primary_key, indexLabels ns2 primary_key model.guid model.labels)

/-- `InMemoryStore._insert_given_pkey` (lines 296-315): `IlpasValueError`
when the primary key already exists, otherwise store and index. -/
def insertGivenPkey {Obj : Type} (ns : NamespaceState Obj) (primary_key : String)
    (model : StoreModel Obj) : Except StoreError (String × NamespaceState Obj) :=
  if (lookupKey ns.store primary_key).isSome then .error .ilpasValue
  else
    let ns1 := { ns with store := setKey ns.store primary_key model }
    .ok (primary_key, indexLabels ns1 primary_key model.guid model.labels)

/-! ### Whole-store state and the public API (`core/store.py`) -/

/-- The whole `InMemoryStore` state: the per-namespace structures, the
flat discovery-key map `key -> (primary_key, namespace, one_time)`, and a
stream of identifiers modelling successive `uuid4()` draws. -/
structure StoreState (Obj : Type) where
  namespaces : Dict String (NamespaceState Obj)
  discovery : Dict String (String × Option String × Bool)
  uuidSupply : List String
deriving DecidableEq

/-- Replace one namespace's state. -/
def setNs {Obj : Type} (st : StoreState Obj) (n : String) (ns : NamespaceState Obj) :
    StoreState Obj :=
  { st with namespaces := setKey st.namespaces n ns }

/-- `Store._get_namespace_name` (lines 195-197): the argument when given,
the default namespace otherwise.  There is no validation of the name. -/
def getNamespaceName {Obj : Type} (cfg : StoreConfig Obj) (nsArg : Option String) :
    String :=
  nsArg.getD cfg.defaultNamespace

/-- `Store._get_namespace` (lines 199-217): resolve and check existence. -/
def getNamespaceChecked {Obj : Type} (cfg : StoreConfig Obj) (st : StoreState Obj)
    (nsArg : Option String) : Except StoreError String :=
  let n := getNamespaceName cfg nsArg
  if (lookupKey st.namespaces n).isSome then .ok n else .error .notFound

/-- `Store._ensure_namespace_exists` (lines 219-233) together with
`InMemoryStore._create_namespace`. -/
def ensureNamespaceExists {Obj : Type} (cfg : StoreConfig Obj) (st : StoreState Obj)
    (nsArg : Option String) : String × StoreState Obj :=
  let n := getNamespaceName cfg nsArg
  if (lookupKey st.namespaces n).isSome then (n, st)
  else (n, setNs st n (NamespaceState.empty Obj))

/-- `InMemoryStore._insert_new_pkey` (lines 282-294): draw a fresh
`uuid4()`, raise `RuntimeError` on a collision with an existing primary
key, otherwise store and index under the drawn key. -/
def insertNewPkey {Obj : Type} (st : StoreState Obj) (n : String)
    (model : StoreModel Obj) : Except StoreError String × StoreState Obj :=
  match st.uuidSupply with
  | [] => (.error .runtime, st)
  | fresh :: rest =>
      let st1 := { st with uuidSupply := rest }
      match lookupKey st1.namespaces n with
      | none => (.error .runtime, st1)
      | some ns =>
          if (lookupKey ns.store fresh).isSome then (.error .runtime, st1)
          else
            let ns1 := { ns with store := setKey ns.store fresh model }
            (.ok fresh, setNs st1 n (indexLabels ns1 fresh model.guid model.labels))

/-- `Store.put_by_primary_key` (lines 300-336). -/
def putByPrimaryKey {Obj : Type} (cfg : StoreConfig Obj) (st : StoreState Obj)
    (value : ValueDict Obj) (guid : String) (labels : Labels) (primary_key : String)
    (nsArg : Option String) (throwOnNotFound : Bool) :
    Except StoreError String × StoreState Obj :=
  let p := ensureNamespaceExists cfg st nsArg
  let model : StoreModel Obj := ⟨Store.encryptValue cfg value, labels, guid⟩
  match lookupKey p.2.namespaces p.1 with
  | none => (.error .runtime, p.2)
  | some ns =>
      if (lookupKey ns.store primary_key).isSome then
        match updateExistingPkey ns primary_key model with
        | .error e => (.error e, p.2)
        | .ok r => (.ok r.1, setNs p.2 p.1 r.2)
      else if throwOnNotFound then (.error .notFound, p.2)
      else
        match insertGivenPkey ns primary_key model with
        | .error e => (.error e, p.2)
        | .ok r => (.ok r.1, setNs p.2 p.1 r.2)

/-- `Store.put_by_labels` (lines 338-373).  The branch on the matched key
is Python's `if existing_key:` (line 368) — truthiness, so both `None`
and the empty string take the insert branch. -/
def putByLabels {Obj : Type} (cfg : StoreConfig Obj) (st : StoreState Obj)
    (value : ValueDict Obj) (guid : String) (labels : Labels) (nsArg : Option String) :
    Except StoreError String × StoreState Obj :=
  let p := ensureNamespaceExists cfg st nsArg
  let model : StoreModel Obj := ⟨Store.encryptValue cfg value, labels, guid⟩
  match lookupKey p.2.namespaces p.1 with
  | none => (.error .runtime, p.2)
  | some ns =>
      let fr := findPrimaryKeysByLabels ns (some guid) labels
      let st1 := setNs p.2 p.1 fr.2
      match ensureSingleOrNoMatch fr.1 with
      | .error e => (.error e, st1)
      | .ok (some existing) =>
          if existing = "" then insertNewPkey st1 p.1 model
          else
            match updateExistingPkey fr.2 existing model with
            | .error e => (.error e, st1)
            | .ok r => (.ok r.1, setNs st1 p.1 r.2)
      | .ok none => insertNewPkey st1 p.1 model

/-- `SearchResult` (`core/models/types.py`): primary key, decrypted
(transformed) value, labels and guid. -/
structure SearchResult (Obj : Type) where
  primary_key : String
  value : HashedValueDict Obj
  labels : Labels
  guid : String
deriving DecidableEq, Repr

/-- Decrypt one stored model into a `SearchResult` (`InvalidToken` when no
configured key fits). -/
def decryptModel {Obj : Type} (cfg : StoreConfig Obj) (pk : String)
    (m : StoreModel Obj) : Except StoreError (SearchResult Obj) :=
  match Store.decryptValue cfg m.encrypted_value with
  | none => .error .keyError
  | some hv => .ok ⟨pk, hv, m.labels, m.guid⟩

/-- `Store.get_by_primary_key` (lines 375-408): a read-only operation; an
absent primary key surfaces as a raw `KeyError` from
`_get_encrypted_values_of_primary_keys`. -/
def getByPrimaryKey {Obj : Type} (cfg : StoreConfig Obj) (st : StoreState Obj)
    (primary_key : String) (nsArg : Option String) :
    Except StoreError (SearchResult Obj) × StoreState Obj :=
  match getNamespaceChecked cfg st nsArg with
  | .error e => (.error e, st)
  | .ok n =>
      match lookupKey st.namespaces n with
      | none => (.error .runtime, st)
      | some ns =>
          match lookupKey ns.store primary_key with
          | none => (.error .keyError, st)
          | some m => (decryptModel cfg primary_key m, st)

/-- `Store.get_by_labels` (lines 410-450). -/
def getByLabels {Obj : Type} (cfg : StoreConfig Obj) (st : StoreState Obj)
    (guid : String) (labels : Labels) (nsArg : Option String) :
    Except StoreError (SearchResult Obj) × StoreState Obj :=
  match getNamespaceChecked cfg st nsArg with
  | .error e => (.error e, st)
  | .ok n =>
      match lookupKey st.namespaces n with
      | none => (.error .runtime, st)
      | some ns =>
          let fr := findPrimaryKeysByLabels ns (some guid) labels
          let st1 := setNs st n fr.2
          match ensureSingleMatch fr.1 with
          | .error e => (.error e, st1)
          | .ok pk =>
              match lookupKey fr.2.store pk with
              | none => (.error .keyError, st1)
              | some m => (decryptModel cfg pk m, st1)

/-- `Store.search` (lines 452-499): find, sanity-check that every found
key exists (`ConflictException("Something is messed up")` otherwise), and
decrypt each match.  Results are listed in sorted primary-key order (the
source iterates a Python set; callers treat the result as a set). -/
def search {Obj : Type} (cfg : StoreConfig Obj) (st : StoreState Obj)
    (guid : Option String) (partial_labels : Labels) (nsArg : Option String) :
    Except StoreError (List (SearchResult Obj)) × StoreState Obj :=
  match getNamespaceChecked cfg st nsArg with
  | .error e => (.error e, st)
  | .ok n =>
      match lookupKey st.namespaces n with
      | none => (.error .runtime, st)
      | some ns =>
          let fr := findPrimaryKeysByLabels ns guid partial_labels
          let st1 := setNs st n fr.2
          let pks := sortedList fr.1
          if pks.all (fun pk => (lookupKey fr.2.store pk).isSome) then
            match pks.mapM (fun pk =>
                match lookupKey fr.2.store pk with
                | none => (.error .keyError : Except StoreError (SearchResult Obj))
                | some m => decryptModel cfg pk m) with
            | .error e => (.error e, st1)
            | .ok rs => (.ok rs, st1)
          else (.error .conflict, st1)

/-- `Store.delete_by_primary_key` (lines 501-522): silently succeed when
the key is absent, otherwise delete and deindex. -/
def deleteByPrimaryKey {Obj : Type} (cfg : StoreConfig Obj) (st : StoreState Obj)
    (primary_key : String) (nsArg : Option String) :
    Except StoreError Unit × StoreState Obj :=
  match getNamespaceChecked cfg st nsArg with
  | .error e => (.error e, st)
  | .ok n =>
      match lookupKey st.namespaces n with
      | none => (.error .runtime, st)
      | some ns =>
          if (lookupKey ns.store primary_key).isSome then
            (.ok (), setNs st n (nsDelete ns primary_key))
          else (.ok (), st)

/-! ### Discovery keys (`core/store.py` lines 177-193,
`dx/in_memory_store.py` lines 317-352) -/

/-- `InMemoryStore._put_instance_discovery`. -/
def putInstanceDiscovery {Obj : Type} (st : StoreState Obj) (key : String)
    (primary_key : String) (nsArg : Option String) (one_time : Bool) :
    StoreState Obj :=
  { st with discovery := setKey st.discovery key (primary_key, nsArg, one_time) }

/-- `Store._delete_instance_discovery` as the program has it: the abstract
hook's body is `pass` (store.py lines 177-185), and `InMemoryStore` never
overrides it — its deletion method is named `delete_instance_discovery`,
without the leading underscore — so the hook that `instance_discovery`
calls does nothing. -/
def deleteInstanceDiscoveryHook {Obj : Type} (st : StoreState Obj) (_key : String) :
    StoreState Obj :=
  st

/-- `InMemoryStore.delete_instance_discovery` (lines 345-352): the
deletion the backend defines under the underscore-less name; nothing in
the program ever calls it. -/
def delete_instance_discovery {Obj : Type} (st : StoreState Obj) (key : String) :
    StoreState Obj :=
  { st with discovery := removeKey st.discovery key }

/-- `Store.instance_discovery` (lines 187-193): look the key up
(`NotFoundException` when absent), call `_delete_instance_discovery` when
the entry is one-time — the `pass` stub, so no deletion happens — and
return `(primary_key, namespace)`. -/
def instanceDiscovery {Obj : Type} (st : StoreState Obj) (key : String) :
    Except StoreError (String × Option String) × StoreState Obj :=
  match lookupKey st.discovery key with
  | none => (.error .notFound, st)
  | some r =>
      if r.2.2 then ((.ok (r.1, r.2.1)), deleteInstanceDiscoveryHook st key)
      else ((.ok (r.1, r.2.1)), st)

/-! ## Theorems -/

/-! ### Characterization of `_find_primary_keys_by_labels` -/

/-- The label-index buckets contributed by the present `(key, value)`
constraints of a query, in query order; constraints whose key or value is
absent from the index contribute nothing. -/
def contributingBuckets {Obj : Type} (ns : NamespaceState Obj) :
    List (String × LabelValue) → List (Finset String)
  | [] => []
  | (k, v) :: rest =>
      match bucketGet ns k v with
      | none => contributingBuckets ns rest
      | some b => b :: contributingBuckets ns rest

/-- What the search actually computes (the amended C1): all primary keys
when neither guid nor labels constrain; the empty set when the guid is
given but has no bucket; otherwise the intersection of the guid bucket (if
a guid is given) with every *present* label bucket — absent buckets are
skipped, and the result is empty when nothing contributes. -/
def findSpec {Obj : Type} (ns : NamespaceState Obj) (guid : Option String)
    (labels : Labels) : Finset String :=
  if labels = [] ∧ guid = none then storeKeys ns
  else
    match guid with
    | some g =>
        match lookupKey ns.guid_index g with
        | none => ∅
        | some b => (contributingBuckets ns labels).foldl (· ∩ ·) b
    | none =>
        match contributingBuckets ns labels with
        | [] => ∅
        | c :: cs => cs.foldl (· ∩ ·) c

/-- Whether the aliased bucket is never re-read while processing the given
constraints (a guid bucket never is; a label bucket only through its key). -/
def targetAvoids (t : AliasTarget) (labels : List (String × LabelValue)) : Prop :=
  match t with
  | .guidBucket _ => True
  | .labelBucket k1 _ => k1 ∉ labels.map Prod.fst

theorem writeTarget_guid_def {Obj : Type} (ns : NamespaceState Obj)
    (g : String) (s : Finset String) :
    writeTarget ns (.guidBucket g) s
      = { ns with guid_index := setKey ns.guid_index g s } := rfl

theorem writeTarget_label_def {Obj : Type} (ns : NamespaceState Obj)
    (k : String) (v : LabelValue) (s : Finset String) :
    writeTarget ns (.labelBucket k v) s
      = match lookupKey ns.label_index k with
        | none => ns
        | some bm =>
            { ns with label_index := setKey ns.label_index k (setKey bm v s) } := rfl

theorem writeTarget_label_none {Obj : Type} (ns : NamespaceState Obj)
    (k : String) (v : LabelValue) (s : Finset String)
    (hbm : lookupKey ns.label_index k = none) :
    writeTarget ns (.labelBucket k v) s = ns := by
  rw [writeTarget_label_def, hbm]

theorem writeTarget_label_some {Obj : Type} (ns : NamespaceState Obj)
    (k : String) (v : LabelValue) (s : Finset String)
    (bm : Dict LabelValue (Finset String))
    (hbm : lookupKey ns.label_index k = some bm) :
    writeTarget ns (.labelBucket k v) s
      = { ns with label_index := setKey ns.label_index k (setKey bm v s) } := by
  rw [writeTarget_label_def, hbm]

theorem bucketGet_writeTarget_guid {Obj : Type} (ns : NamespaceState Obj)
    (g : String) (m : Finset String) (k : String) (v : LabelValue) :
    bucketGet (writeTarget ns (.guidBucket g) m) k v = bucketGet ns k v := rfl

theorem bucketGet_writeTarget_label {Obj : Type} (ns : NamespaceState Obj)
    (k1 : String) (v1 : LabelValue) (m : Finset String) (k : String) (v : LabelValue)
    (h : k1 ≠ k) :
    bucketGet (writeTarget ns (.labelBucket k1 v1) m) k v = bucketGet ns k v := by
  cases hbm : lookupKey ns.label_index k1 with
  | none => rw [writeTarget_label_none ns k1 v1 m hbm]
  | some bm =>
      rw [writeTarget_label_some ns k1 v1 m bm hbm]
      unfold bucketGet
      rw [show ({ ns with label_index := setKey ns.label_index k1 (setKey bm v1 m) }
          : NamespaceState Obj).label_index = setKey ns.label_index k1 (setKey bm v1 m) from rfl]
      rw [lookupKey_setKey_ne _ _ _ _ h]

theorem bucketGet_writeTarget_avoids {Obj : Type} (ns : NamespaceState Obj)
    (t : AliasTarget) (m : Finset String) (k : String) (v : LabelValue)
    (labels : List (String × LabelValue)) (hk : (k, v) ∈ labels)
    (hav : targetAvoids t labels) :
    bucketGet (writeTarget ns t m) k v = bucketGet ns k v := by
  cases t with
  | guidBucket g => rfl
  | labelBucket k1 v1 =>
      refine bucketGet_writeTarget_label ns k1 v1 m k v ?_
      intro he
      subst he
      exact hav (List.mem_map.mpr ⟨(k1, v), hk, rfl⟩)

theorem writeTarget_writeTarget {Obj : Type} (ns : NamespaceState Obj)
    (t : AliasTarget) (m m' : Finset String) :
    writeTarget (writeTarget ns t m) t m' = writeTarget ns t m' := by
  cases t with
  | guidBucket g =>
      rw [writeTarget_guid_def, writeTarget_guid_def]
      rw [show ({ ns with guid_index := setKey ns.guid_index g m }
          : NamespaceState Obj).guid_index = setKey ns.guid_index g m from rfl]
      rw [setKey_setKey_same, writeTarget_guid_def]
  | labelBucket k v =>
      cases hbm : lookupKey ns.label_index k with
      | none =>
          rw [writeTarget_label_none ns k v m hbm]
      | some bm =>
          rw [writeTarget_label_some ns k v m bm hbm]
          rw [writeTarget_label_some _ k v m' (setKey bm v m)
            (lookupKey_setKey_self ns.label_index k (setKey bm v m))]
          rw [writeTarget_label_some ns k v m' bm hbm]
          rw [show ({ ns with label_index := setKey ns.label_index k (setKey bm v m) }
              : NamespaceState Obj).label_index
              = setKey ns.label_index k (setKey bm v m) from rfl]
          rw [setKey_setKey_same, setKey_setKey_same]

theorem writeTarget_self_guid {Obj : Type} (ns : NamespaceState Obj)
    (g : String) (b : Finset String) (h : lookupKey ns.guid_index g = some b) :
    writeTarget ns (.guidBucket g) b = ns := by
  simp [writeTarget, setKey_self_of_lookup _ _ _ h]

theorem writeTarget_self_label {Obj : Type} (ns : NamespaceState Obj)
    (k : String) (v : LabelValue) (c : Finset String) (h : bucketGet ns k v = some c) :
    writeTarget ns (.labelBucket k v) c = ns := by
  unfold bucketGet at h
  cases hbm : lookupKey ns.label_index k with
  | none =>
      rw [writeTarget_label_def, hbm]
  | some bm =>
      rw [hbm] at h
      have h' : lookupKey bm v = some c := h
      rw [writeTarget_label_some ns k v c bm hbm, setKey_self_of_lookup bm v c h',
        setKey_self_of_lookup _ _ _ hbm]

theorem findLoop_step_skip {Obj : Type} (ns : NamespaceState Obj)
    (acc : Option (AliasTarget × Finset String)) (k : String) (v : LabelValue)
    (rest : List (String × LabelValue)) (h : bucketGet ns k v = none) :
    findLoop ns acc ((k, v) :: rest) = findLoop ns acc rest := by
  rw [findLoop, h]

theorem findLoop_step_seed {Obj : Type} (ns : NamespaceState Obj)
    (k : String) (v : LabelValue) (rest : List (String × LabelValue))
    (current : Finset String) (h : bucketGet ns k v = some current) :
    findLoop ns none ((k, v) :: rest)
      = findLoop ns (some (.labelBucket k v, current)) rest := by
  rw [findLoop, h]

theorem findLoop_step_narrow {Obj : Type} (ns : NamespaceState Obj)
    (t : AliasTarget) (matching : Finset String) (k : String) (v : LabelValue)
    (rest : List (String × LabelValue)) (current : Finset String)
    (h : bucketGet ns k v = some current) :
    findLoop ns (some (t, matching)) ((k, v) :: rest)
      = findLoop (writeTarget ns t (matching ∩ current))
          (some (t, matching ∩ current)) rest := by
  rw [findLoop, h]

/-- Running the loop with the accumulator aliased to a bucket the
remaining constraints never read: the result is `m` intersected with every
contributing bucket of the *original* state, and the only state change is
that the aliased bucket now holds that intersection. -/
theorem findLoop_seeded {Obj : Type} (labels : List (String × LabelValue)) :
    ∀ (ns : NamespaceState Obj) (t : AliasTarget) (m : Finset String),
    targetAvoids t labels →
    findLoop (writeTarget ns t m) (some (t, m)) labels
      = (some ((contributingBuckets ns labels).foldl (· ∩ ·) m),
         writeTarget ns t ((contributingBuckets ns labels).foldl (· ∩ ·) m)) := by
  induction labels with
  | nil =>
      intro ns t m _
      simp [findLoop, contributingBuckets]
  | cons kv rest ih =>
      obtain ⟨k, v⟩ := kv
      intro ns t m hav
      have havrest : targetAvoids t rest := by
        cases t with
        | guidBucket g => trivial
        | labelBucket k1 v1 =>
            intro hm
            exact hav (by simpa using Or.inr (by simpa using hm))
      have hread : bucketGet (writeTarget ns t m) k v = bucketGet ns k v :=
        bucketGet_writeTarget_avoids ns t m k v ((k, v) :: rest) (by simp) hav
      cases hb : bucketGet ns k v with
      | none =>
          rw [findLoop_step_skip _ _ _ _ _ (hread.trans hb), ih ns t m havrest]
          simp [contributingBuckets, hb]
      | some current =>
          rw [findLoop_step_narrow _ _ _ _ _ _ _ (hread.trans hb),
            writeTarget_writeTarget, ih ns t (m ∩ current) havrest]
          simp [contributingBuckets, hb]

/-- Running the loop from the Python-`None` accumulator: the result is the
intersection of the contributing buckets (`none` when nothing
contributes). -/
theorem findLoop_unseeded_fst {Obj : Type} (labels : List (String × LabelValue)) :
    ∀ ns : NamespaceState Obj,
    (labels.map Prod.fst).Nodup →
    (findLoop ns none labels).1
      = match contributingBuckets ns labels with
        | [] => none
        | c :: cs => some (cs.foldl (· ∩ ·) c) := by
  induction labels with
  | nil => intro ns _; simp [findLoop, contributingBuckets]
  | cons kv rest ih =>
      obtain ⟨k, v⟩ := kv
      intro ns hnd
      simp only [List.map_cons, List.nodup_cons] at hnd
      cases hb : bucketGet ns k v with
      | none =>
          rw [findLoop_step_skip _ _ _ _ _ hb, ih ns hnd.2]
          simp [contributingBuckets, hb]
      | some current =>
          have hself : writeTarget ns (.labelBucket k v) current = ns :=
            writeTarget_self_label ns k v current hb
          have hav : targetAvoids (.labelBucket k v) rest := hnd.1
          have hrun := findLoop_seeded rest ns (.labelBucket k v) current hav
          rw [hself] at hrun
          rw [findLoop_step_seed _ _ _ _ _ hb, hrun]
          simp [contributingBuckets, hb]

theorem find_some_def {Obj : Type} (ns : NamespaceState Obj) (g : String)
    (labels : Labels) :
    findPrimaryKeysByLabels ns (some g) labels
      = match lookupKey ns.guid_index g with
        | none => (∅, ns)
        | some b =>
            match findLoop ns (some (.guidBucket g, b)) labels with
            | (some m, ns') => (m, ns')
            | (none, ns') => (∅, ns') := by
  unfold findPrimaryKeysByLabels
  rw [if_neg (by rintro ⟨-, h⟩; exact Option.noConfusion h)]

theorem find_none_def {Obj : Type} (ns : NamespaceState Obj)
    (labels : Labels) (hne : labels ≠ []) :
    findPrimaryKeysByLabels ns none labels
      = match findLoop ns none labels with
        | (some m, ns') => (m, ns')
        | (none, ns') => (∅, ns') := by
  unfold findPrimaryKeysByLabels
  rw [if_neg (by rintro ⟨hl, -⟩; exact hne hl)]

theorem find_some_def_bucket {Obj : Type} (ns : NamespaceState Obj) (g : String)
    (labels : Labels) (b : Finset String)
    (hb : lookupKey ns.guid_index g = some b) :
    findPrimaryKeysByLabels ns (some g) labels
      = match findLoop ns (some (.guidBucket g, b)) labels with
        | (some m, ns') => (m, ns')
        | (none, ns') => (∅, ns') := by
  rw [find_some_def, hb]

/-- `_find_primary_keys_by_labels` with a guid that has a bucket: the
result is the guid bucket intersected with every contributing label
bucket, and the guid bucket itself is overwritten with that result (the
observable effect of the in-place `intersection_update`). -/
theorem find_guid_some {Obj : Type} (ns : NamespaceState Obj) (g : String)
    (labels : Labels) (b : Finset String)
    (hb : lookupKey ns.guid_index g = some b) :
    findPrimaryKeysByLabels ns (some g) labels
      = ((contributingBuckets ns labels).foldl (· ∩ ·) b,
        { ns with guid_index := setKey ns.guid_index g ((contributingBuckets ns labels).foldl (· ∩ ·) b) }) := by
  have hself : writeTarget ns (.guidBucket g) b = ns := writeTarget_self_guid ns g b hb
  have hrun := findLoop_seeded labels ns (.guidBucket g) b trivial
  rw [hself] at hrun
  rw [find_some_def_bucket ns g labels b hb, hrun]
  rfl

/-- `_find_primary_keys_by_labels` with a guid that has no bucket returns
the empty set without touching the state. -/
theorem find_guid_absent {Obj : Type} (ns : NamespaceState Obj) (g : String)
    (labels : Labels) (hb : lookupKey ns.guid_index g = none) :
    findPrimaryKeysByLabels ns (some g) labels = (∅, ns) := by
  rw [find_some_def, hb]

/-- Membership in a left fold of intersections. -/
theorem mem_foldl_inter (pk : String) (b : Finset String) (cbs : List (Finset String)) :
    pk ∈ cbs.foldl (· ∩ ·) b ↔ pk ∈ b ∧ ∀ c ∈ cbs, pk ∈ c := by
  induction cbs generalizing b with
  | nil => simp
  | cons c cs ih =>
      rw [List.foldl_cons, ih]
      constructor
      · rintro ⟨hbc, hall⟩
        rw [Finset.mem_inter] at hbc
        exact ⟨hbc.1, by
          intro c' hc'
          rcases List.mem_cons.mp hc' with he | hm
          · exact he ▸ hbc.2
          · exact hall c' hm⟩
      · rintro ⟨hbm, hall⟩
        refine ⟨Finset.mem_inter.mpr ⟨hbm, hall c (by simp)⟩, ?_⟩
        intro c' hc'
        exact hall c' (List.mem_cons_of_mem c hc')

theorem mem_contributingBuckets {Obj : Type} (ns : NamespaceState Obj)
    (labels : List (String × LabelValue)) (c : Finset String) :
    c ∈ contributingBuckets ns labels
      ↔ ∃ kv ∈ labels, bucketGet ns kv.1 kv.2 = some c := by
  induction labels with
  | nil => simp [contributingBuckets]
  | cons kv rest ih =>
      obtain ⟨k, v⟩ := kv
      cases hb : bucketGet ns k v with
      | none =>
          simp only [contributingBuckets, hb, ih, List.mem_cons]
          constructor
          · rintro ⟨kv', hm, he⟩
            exact ⟨kv', Or.inr hm, he⟩
          · rintro ⟨kv', hm, he⟩
            rcases hm with he' | hm'
            · subst he'; rw [hb] at he; exact Option.noConfusion he
            · exact ⟨kv', hm', he⟩
      | some b =>
          simp only [contributingBuckets, hb, List.mem_cons, ih]
          constructor
          · rintro (he | ⟨kv', hm, he⟩)
            · exact ⟨(k, v), Or.inl rfl, by rw [hb, he]⟩
            · exact ⟨kv', Or.inr hm, he⟩
          · rintro ⟨kv', hm, he⟩
            rcases hm with he' | hm'
            · subst he'; rw [hb] at he
              exact Or.inl (Option.some_injective _ he).symm
            · exact Or.inr ⟨kv', hm', he⟩

/-- **C1** (counterexample): with one record `1:{guid slack, labels
{team: eng}}`, the query `guid=None, labels={team: eng, color: red}` has
an *absent* bucket for `(color, red)`, yet the search returns `{1}` — the
absent constraint is skipped (`continue`) rather than contributing an
empty set, so the claimed collapse to the empty set does not happen. -/
theorem C1_counterexample :
    (findPrimaryKeysByLabels
        ((lookupKey (putByPrimaryKey
            (⟨"K", [], "default", id, toString, id⟩ : StoreConfig Nat)
            ⟨[], [], []⟩ ⟨1, 1, none, none⟩ "slack" [("team", .vstr "eng")]
            "1" none false).2.namespaces "default").getD (NamespaceState.empty Nat))
        none [("team", .vstr "eng"), ("color", .vstr "red")]).1
      = {"1"}
    ∧ ({"1"} : Finset String) ≠ ∅ := by
  refine ⟨by decide, by decide⟩

/-- **C1** (amended): the lookup returns all primary keys of the namespace
when neither guid nor labels are given; the empty set when a guid is given
but absent from the guid index; and otherwise the intersection of the guid
bucket (when a guid is given) with the bucket of every `(key, value)`
constraint that is *present* in the label index — constraints with absent
buckets are skipped, and when no constraint contributes at all the result
is empty. -/
theorem C1_find_characterization {Obj : Type} (ns : NamespaceState Obj)
    (guid : Option String) (labels : Labels)
    (hnd : (labels.map Prod.fst).Nodup) :
    (findPrimaryKeysByLabels ns guid labels).1 = findSpec ns guid labels := by
  by_cases hearly : labels = [] ∧ guid = none
  · unfold findPrimaryKeysByLabels findSpec
    rw [if_pos hearly, if_pos hearly]
  · unfold findSpec
    rw [if_neg hearly]
    cases guid with
    | some g =>
        cases hb : lookupKey ns.guid_index g with
        | none =>
            rw [find_guid_absent ns g labels hb]
            simp [hb]
        | some b =>
            rw [find_guid_some ns g labels b hb]
            simp [hb]
    | none =>
        have hne : labels ≠ [] := fun he => hearly ⟨he, rfl⟩
        rw [find_none_def ns labels hne]
        have hfst := findLoop_unseeded_fst labels ns hnd
        cases hfl : findLoop ns none labels with
        | mk fst snd =>
            rw [hfl] at hfst
            simp only at hfst
            cases hcb : contributingBuckets ns labels with
            | nil =>
                rw [hcb] at hfst
                simp only at hfst
                subst hfst
                simp
            | cons c cs =>
                rw [hcb] at hfst
                simp only at hfst
                subst hfst
                simp

/-- Witness for the amended C1 on a concrete namespace and query. -/
theorem C1_find_characterization_witness :
    ((([("team", LabelValue.vstr "eng"), ("color", LabelValue.vstr "red")].map
        Prod.fst).Nodup)
    ∧ (findPrimaryKeysByLabels
        ((lookupKey (putByPrimaryKey
            (⟨"K", [], "default", id, toString, id⟩ : StoreConfig Nat)
            ⟨[], [], []⟩ ⟨1, 1, none, none⟩ "slack" [("team", .vstr "eng")]
            "1" none false).2.namespaces "default").getD (NamespaceState.empty Nat))
        (some "slack") [("team", .vstr "eng"), ("color", .vstr "red")]).1
      = findSpec
        ((lookupKey (putByPrimaryKey
            (⟨"K", [], "default", id, toString, id⟩ : StoreConfig Nat)
            ⟨[], [], []⟩ ⟨1, 1, none, none⟩ "slack" [("team", .vstr "eng")]
            "1" none false).2.namespaces "default").getD (NamespaceState.empty Nat))
        (some "slack") [("team", .vstr "eng"), ("color", .vstr "red")]) :=
  ⟨by decide, C1_find_characterization _ (some "slack") _ (by decide)⟩

/-- `MultiFernet.decrypt` succeeds exactly when some configured key is the
one the token was encrypted under, and then yields the token's payload;
otherwise it fails. -/
theorem multiFernet_decrypt_eq {P : Type} (keys : List String) (t : FernetToken P) :
    MultiFernet.decrypt keys t = if t.key ∈ keys then some t.payload else none := by
  induction keys with
  | nil => simp [MultiFernet.decrypt]
  | cons k rest ih =>
      by_cases h : t.key = k
      · simp [MultiFernet.decrypt, Fernet.decrypt, h]
      · simp only [MultiFernet.decrypt, Fernet.decrypt, if_neg h, ih, List.mem_cons]
        by_cases hm : t.key ∈ rest
        · rw [if_pos hm, if_pos (Or.inr hm)]
        · rw [if_neg hm, if_neg (by rintro (he | hm2); exact h he; exact hm hm2)]

/-- **C5** (confirmed): `Store._encrypt` always encrypts under the first
(primary) configured key, and `Store._decrypt` tries each configured key
in order, succeeding exactly when one of them is the key of the token.
Consequently a ciphertext produced while the key list is `[K1]` still
decrypts when the key list becomes `[K2, K1]`, and fails to decrypt when
the key list is `[K2]` alone (for keys that remain distinct after the
base64 re-encoding). -/
theorem C5_key_rotation {Obj : Type} (fk : String → String) (dm : Obj → String)
    (hs : String → String) (d : String) (K1 K2 : String) (v : ValueDict Obj)
    (hne : fk K1 ≠ fk K2) :
    (Store.encryptValue ⟨K1, [], d, fk, dm, hs⟩ v).key = fk K1
    ∧ Store.decryptValue ⟨K2, [K1], d, fk, dm, hs⟩ (Store.encryptValue ⟨K1, [], d, fk, dm, hs⟩ v)
        = some (Store.hashValue ⟨K1, [], d, fk, dm, hs⟩ v)
    ∧ Store.decryptValue ⟨K2, [], d, fk, dm, hs⟩ (Store.encryptValue ⟨K1, [], d, fk, dm, hs⟩ v)
        = none := by
  refine ⟨rfl, ?_, ?_⟩
  · rw [Store.decryptValue, multiFernet_decrypt_eq]
    simp [Store.encryptValue, Fernet.encrypt, StoreConfig.encryptionKeys]
  · rw [Store.decryptValue, multiFernet_decrypt_eq]
    simp only [Store.encryptValue, Fernet.encrypt, StoreConfig.encryptionKeys]
    simp [hne]

/-- Witness for C5 at concrete keys. -/
theorem C5_key_rotation_witness :
    (Store.encryptValue ⟨"a", [], "default", id, toString, id⟩
        (⟨0, 0, none, none⟩ : ValueDict Nat)).key = "a"
    ∧ Store.decryptValue ⟨"b", ["a"], "default", id, toString, id⟩
        (Store.encryptValue ⟨"a", [], "default", id, toString, id⟩
          (⟨0, 0, none, none⟩ : ValueDict Nat))
        = some (Store.hashValue ⟨"a", [], "default", id, toString, id⟩ ⟨0, 0, none, none⟩)
    ∧ Store.decryptValue ⟨"b", [], "default", id, toString, id⟩
        (Store.encryptValue ⟨"a", [], "default", id, toString, id⟩
          (⟨0, 0, none, none⟩ : ValueDict Nat))
        = none :=
  C5_key_rotation id toString id "default" "a" "b" ⟨0, 0, none, none⟩ (by decide)

/-- **C3** (code_bug): one-time discovery keys are never deleted.
`Store.instance_discovery` calls `self._delete_instance_discovery`, whose
only implementation is the abstract `pass` stub — `InMemoryStore` names
its deletion `delete_instance_discovery`, without the leading underscore,
and never overrides the hook.  So a one-time key's entry survives the
first call unchanged and a second `instance_discovery` succeeds again
with the same `(primary_key, namespace)` instead of raising
`NotFoundException`.  Had the backend's deletion been wired into the
hook, the second call would raise `NotFoundException` as the claim
demands (last conjunct).  Unknown keys do raise `NotFoundException`. -/
theorem C3_one_time_key_never_deleted {Obj : Type} (st : StoreState Obj)
    (key pk : String) (nsArg : Option String)
    (hnd : (keysOf st.discovery).Nodup) :
    (instanceDiscovery (putInstanceDiscovery st key pk nsArg true) key
        = (.ok (pk, nsArg), putInstanceDiscovery st key pk nsArg true))
    ∧ (instanceDiscovery
        (instanceDiscovery (putInstanceDiscovery st key pk nsArg true) key).2 key).1
      = .ok (pk, nsArg)
    ∧ (instanceDiscovery
        (delete_instance_discovery (putInstanceDiscovery st key pk nsArg true) key) key).1
      = .error .notFound
    ∧ (lookupKey st.discovery key = none →
        (instanceDiscovery st key).1 = .error .notFound
        ∧ (instanceDiscovery st key).2 = st) := by
  have h1 : lookupKey (setKey st.discovery key (pk, nsArg, true)) key
      = some (pk, nsArg, true) := lookupKey_setKey_self _ _ _
  have hcall : instanceDiscovery (putInstanceDiscovery st key pk nsArg true) key
      = (.ok (pk, nsArg), putInstanceDiscovery st key pk nsArg true) := by
    simp [instanceDiscovery, putInstanceDiscovery, deleteInstanceDiscoveryHook, h1]
  refine ⟨hcall, ?_, ?_, ?_⟩
  · rw [hcall]
    show (instanceDiscovery (putInstanceDiscovery st key pk nsArg true) key).1
      = .ok (pk, nsArg)
    rw [hcall]
  · have h2 : lookupKey
        (removeKey (setKey st.discovery key (pk, nsArg, true)) key) key = none :=
      lookupKey_removeKey_self _ _ (nodup_keysOf_setKey _ _ _ hnd)
    simp [instanceDiscovery, delete_instance_discovery, putInstanceDiscovery, h2]
  · intro h
    simp [instanceDiscovery, h]

/-- Witness for C3 on a concrete store. -/
theorem C3_one_time_key_never_deleted_witness :
    (instanceDiscovery (putInstanceDiscovery
          (⟨[], [], []⟩ : StoreState Nat) "k" "p" (some "n") true) "k"
        = (.ok ("p", some "n"), putInstanceDiscovery
            (⟨[], [], []⟩ : StoreState Nat) "k" "p" (some "n") true))
    ∧ (instanceDiscovery
        (instanceDiscovery (putInstanceDiscovery
          (⟨[], [], []⟩ : StoreState Nat) "k" "p" (some "n") true) "k").2 "k").1
      = .ok ("p", some "n")
    ∧ (instanceDiscovery
        (delete_instance_discovery (putInstanceDiscovery
          (⟨[], [], []⟩ : StoreState Nat) "k" "p" (some "n") true) "k") "k").1
      = .error .notFound
    ∧ (lookupKey (⟨[], [], []⟩ : StoreState Nat).discovery "k" = none →
        (instanceDiscovery (⟨[], [], []⟩ : StoreState Nat) "k").1 = .error .notFound
        ∧ (instanceDiscovery (⟨[], [], []⟩ : StoreState Nat) "k").2
          = (⟨[], [], []⟩ : StoreState Nat)) :=
  C3_one_time_key_never_deleted (⟨[], [], []⟩ : StoreState Nat) "k" "p" (some "n")
    (by decide)

/-- **C9** (confirmed): `put_by_primary_key` on an existing record with a
different guid raises `BadDataError` from `_update_existing_pkey` before
any mutation: the returned state is exactly the input state, so the
record, its labels and both indices are unchanged. -/
theorem C9_guid_immutable {Obj : Type} (cfg : StoreConfig Obj) (st : StoreState Obj)
    (v : ValueDict Obj) (g' : String) (L : Labels) (pk : String)
    (nsArg : Option String) (throw : Bool)
    (ns : NamespaceState Obj) (m : StoreModel Obj)
    (hns : lookupKey st.namespaces (getNamespaceName cfg nsArg) = some ns)
    (hpk : lookupKey ns.store pk = some m)
    (hg : m.guid ≠ g') :
    putByPrimaryKey cfg st v g' L pk nsArg throw = (.error .badData, st) := by
  have hens : ensureNamespaceExists cfg st nsArg = (getNamespaceName cfg nsArg, st) := by
    simp [ensureNamespaceExists, hns, setNs]
  simp only [putByPrimaryKey, hens, hns, hpk, Option.isSome_some, if_pos]
  simp [updateExistingPkey, hpk, hg]

/-- Witness for C9 on a concrete store holding one record. -/
theorem C9_guid_immutable_witness :
    putByPrimaryKey (⟨"K", [], "default", id, toString, id⟩ : StoreConfig Nat)
      (putByPrimaryKey ⟨"K", [], "default", id, toString, id⟩ ⟨[], [], []⟩
          ⟨1, 1, none, none⟩ "g1" [] "p" none false).2
      ⟨2, 2, none, none⟩ "g2" [] "p" none false
    = (.error .badData,
        (putByPrimaryKey ⟨"K", [], "default", id, toString, id⟩ ⟨[], [], []⟩
          ⟨1, 1, none, none⟩ "g1" [] "p" none false).2) :=
  C9_guid_immutable _ _ _ _ _ _ _ _
    ⟨[("p", ⟨⟨"K", ⟨1, ⟨"1"⟩, none, none⟩⟩, [], "g1"⟩)], [], [("g1", {"p"})]⟩
    ⟨⟨"K", ⟨1, ⟨"1"⟩, none, none⟩⟩, [], "g1"⟩
    (by decide) (by decide) (by decide)

/-- **C2** (code bug): a read-only `search` mutates the guid index.
`_find_primary_keys_by_labels` seeds `matching_primary_keys` with the live
guid bucket and narrows it with `intersection_update`, which intersects
the bucket in place; after `search(guid="slack", {"team": "eng"})` on
records `1:{team: eng}` and `2:{team: ops}` (both guid `slack`), the
`slack` guid bucket has shrunk from `{1, 2}` to `{1}` even though record
`2` is still live with guid `slack` — the index no longer mirrors the
records, contradicting the invariant the claim states. -/
theorem C2_search_mutates_guid_index :
    (guidGetD ((lookupKey
        (putByPrimaryKey (⟨"K", [], "default", id, toString, id⟩ : StoreConfig Nat)
          (putByPrimaryKey ⟨"K", [], "default", id, toString, id⟩ ⟨[], [], []⟩
            ⟨1, 1, none, none⟩ "slack" [("team", .vstr "eng")] "1" none false).2
          ⟨2, 2, none, none⟩ "slack" [("team", .vstr "ops")] "2" none false).2.namespaces
        "default").getD (NamespaceState.empty Nat)) "slack" = {"1", "2"})
    ∧ (guidGetD ((lookupKey
        (search (⟨"K", [], "default", id, toString, id⟩ : StoreConfig Nat)
          (putByPrimaryKey ⟨"K", [], "default", id, toString, id⟩
            (putByPrimaryKey ⟨"K", [], "default", id, toString, id⟩ ⟨[], [], []⟩
              ⟨1, 1, none, none⟩ "slack" [("team", .vstr "eng")] "1" none false).2
            ⟨2, 2, none, none⟩ "slack" [("team", .vstr "ops")] "2" none false).2
          (some "slack") [("team", .vstr "eng")] none).2.namespaces
        "default").getD (NamespaceState.empty Nat)) "slack" = {"1"})
    ∧ ((lookupKey ((lookupKey
        (search (⟨"K", [], "default", id, toString, id⟩ : StoreConfig Nat)
          (putByPrimaryKey ⟨"K", [], "default", id, toString, id⟩
            (putByPrimaryKey ⟨"K", [], "default", id, toString, id⟩ ⟨[], [], []⟩
              ⟨1, 1, none, none⟩ "slack" [("team", .vstr "eng")] "1" none false).2
            ⟨2, 2, none, none⟩ "slack" [("team", .vstr "ops")] "2" none false).2
          (some "slack") [("team", .vstr "eng")] none).2.namespaces
        "default").getD (NamespaceState.empty Nat)).store "2").map StoreModel.guid
      = some "slack") := by
  refine ⟨by decide, by decide, by decide⟩

/-- **C8** (counterexample): explicitly passing the namespace string
`"default"` is not rejected: `put_by_primary_key` succeeds and returns the
primary key — `_get_namespace_name` performs no validation, so the claimed
`ValueError`-class rejection does not exist. -/
theorem C8_counterexample :
    (putByPrimaryKey (⟨"K", [], "default", id, toString, id⟩ : StoreConfig Nat)
        ⟨[], [], []⟩ ⟨0, 0, none, none⟩ "g" [] "p1" (some "default") false).1
      = .ok "p1"
    ∧ (putByPrimaryKey (⟨"K", [], "default", id, toString, id⟩ : StoreConfig Nat)
        ⟨[], [], []⟩ ⟨0, 0, none, none⟩ "g" [] "p1" (some "default") false).1
      ≠ .error .ilpasValue := by
  refine ⟨by decide, by decide⟩

/-- **C8** (amended): supplying the namespace `"default"` explicitly is
accepted and behaves exactly like leaving the namespace argument absent —
every store operation returns identical results and states for
`some "default"` and `none` (when the store's default namespace is the
usual `"default"`). -/
theorem C8_default_explicit_same_as_absent {Obj : Type} (cfg : StoreConfig Obj)
    (st : StoreState Obj) (v : ValueDict Obj) (g : String) (L : Labels)
    (pk : String) (throw : Bool)
    (h : cfg.defaultNamespace = "default") :
    putByPrimaryKey cfg st v g L pk (some "default") throw
      = putByPrimaryKey cfg st v g L pk none throw
    ∧ putByLabels cfg st v g L (some "default") = putByLabels cfg st v g L none
    ∧ getByPrimaryKey cfg st pk (some "default") = getByPrimaryKey cfg st pk none
    ∧ getByLabels cfg st g L (some "default") = getByLabels cfg st g L none
    ∧ search cfg st (some g) L (some "default") = search cfg st (some g) L none
    ∧ deleteByPrimaryKey cfg st pk (some "default") = deleteByPrimaryKey cfg st pk none := by
  have hn : getNamespaceName cfg (some "default") = getNamespaceName cfg none := by
    simp [getNamespaceName, h]
  refine ⟨?_, ?_, ?_, ?_, ?_, ?_⟩
  · simp only [putByPrimaryKey, ensureNamespaceExists, hn]
  · simp only [putByLabels, ensureNamespaceExists, hn]
  · simp only [getByPrimaryKey, getNamespaceChecked, hn]
  · simp only [getByLabels, getNamespaceChecked, hn]
  · simp only [search, getNamespaceChecked, hn]
  · simp only [deleteByPrimaryKey, getNamespaceChecked, hn]

/-! ### Effect lemmas for index maintenance -/

theorem foldl_invariant {α σ : Type} (P : σ → Prop) (f : σ → α → σ)
    (l : List α) (s : σ) (h0 : P s)
    (hstep : ∀ s' a, a ∈ l → P s' → P (f s' a)) : P (l.foldl f s) := by
  induction l generalizing s with
  | nil => exact h0
  | cons a rest ih =>
      rw [List.foldl_cons]
      exact ih (f s a) (hstep s a (by simp) h0)
        (fun s' a' ha' hp => hstep s' a' (List.mem_cons_of_mem a ha') hp)

theorem backfillBucket_absent {Obj : Type} {acc : NamespaceState Obj}
    {lk : String} (pkey : String) (h : lookupKey acc.label_index lk = none) :
    backfillBucket lk pkey acc = acc := by
  unfold backfillBucket
  rw [h]

theorem backfillBucket_noBucket {Obj : Type} {acc : NamespaceState Obj}
    {lk : String} (pkey : String) {bm : Dict LabelValue (Finset String)}
    (hbm : lookupKey acc.label_index lk = some bm)
    (hv : lookupKey bm LabelValue.vnone = none) :
    backfillBucket lk pkey acc = acc := by
  unfold backfillBucket
  simp only [hbm, hv]

theorem backfillBucket_some {Obj : Type} {acc : NamespaceState Obj}
    {lk : String} (pkey : String) {bm : Dict LabelValue (Finset String)}
    {b : Finset String}
    (hbm : lookupKey acc.label_index lk = some bm)
    (hv : lookupKey bm LabelValue.vnone = some b) :
    backfillBucket lk pkey acc
      = { acc with label_index := setKey acc.label_index lk (setKey bm LabelValue.vnone (insert pkey b)) } := by
  unfold backfillBucket
  simp only [hbm, hv]

theorem backfillStore_absent {Obj : Type} {acc : NamespaceState Obj}
    (lk : String) {pkey : String} (h : lookupKey acc.store pkey = none) :
    backfillStore lk pkey acc = acc := by
  unfold backfillStore
  rw [h]

theorem backfillStore_some {Obj : Type} {acc : NamespaceState Obj}
    (lk : String) {pkey : String} {m : StoreModel Obj}
    (h : lookupKey acc.store pkey = some m) :
    backfillStore lk pkey acc
      = { acc with store := setKey acc.store pkey { m with labels := setKey m.labels lk LabelValue.vnone } } := by
  unfold backfillStore
  simp only [h]

theorem backfillBucket_store {Obj : Type} (lk pkey : String)
    (acc : NamespaceState Obj) : (backfillBucket lk pkey acc).store = acc.store := by
  cases hbm : lookupKey acc.label_index lk with
  | none => rw [backfillBucket_absent pkey hbm]
  | some bm =>
      cases hv : lookupKey bm LabelValue.vnone with
      | none => rw [backfillBucket_noBucket pkey hbm hv]
      | some b => rw [backfillBucket_some pkey hbm hv]

theorem backfillBucket_guid {Obj : Type} (lk pkey : String)
    (acc : NamespaceState Obj) :
    (backfillBucket lk pkey acc).guid_index = acc.guid_index := by
  cases hbm : lookupKey acc.label_index lk with
  | none => rw [backfillBucket_absent pkey hbm]
  | some bm =>
      cases hv : lookupKey bm LabelValue.vnone with
      | none => rw [backfillBucket_noBucket pkey hbm hv]
      | some b => rw [backfillBucket_some pkey hbm hv]

theorem backfillStore_guid {Obj : Type} (lk pkey : String)
    (acc : NamespaceState Obj) :
    (backfillStore lk pkey acc).guid_index = acc.guid_index := by
  cases h : lookupKey acc.store pkey with
  | none => rw [backfillStore_absent lk h]
  | some m => rw [backfillStore_some lk h]

theorem backfillStore_label {Obj : Type} (lk pkey : String)
    (acc : NamespaceState Obj) :
    (backfillStore lk pkey acc).label_index = acc.label_index := by
  cases h : lookupKey acc.store pkey with
  | none => rw [backfillStore_absent lk h]
  | some m => rw [backfillStore_some lk h]

theorem backfillStore_store_ne {Obj : Type} (lk : String) {pkey : String}
    (acc : NamespaceState Obj) (q : String) (hq : q ≠ pkey) :
    lookupKey (backfillStore lk pkey acc).store q = lookupKey acc.store q := by
  cases h : lookupKey acc.store pkey with
  | none => rw [backfillStore_absent lk h]
  | some m =>
      rw [backfillStore_some lk h]
      exact lookupKey_setKey_ne acc.store pkey q _ (fun he => hq he.symm)

theorem backfillOne_self {Obj : Type} (lk pk : String) (acc : NamespaceState Obj)
    {pkey : String} (h : pkey = pk) : backfillOne lk pk acc pkey = acc := by
  unfold backfillOne
  rw [if_pos h]

theorem backfillOne_ne {Obj : Type} (lk pk : String) (acc : NamespaceState Obj)
    {pkey : String} (h : pkey ≠ pk) :
    backfillOne lk pk acc pkey = backfillStore lk pkey (backfillBucket lk pkey acc) := by
  unfold backfillOne
  rw [if_neg h]

theorem backfillOne_store_at {Obj : Type} (lk pk : String) (acc : NamespaceState Obj)
    (pkey q : String) (hq : q ≠ pkey) :
    lookupKey (backfillOne lk pk acc pkey).store q = lookupKey acc.store q := by
  by_cases hp : pkey = pk
  · rw [backfillOne_self lk pk acc hp]
  · rw [backfillOne_ne lk pk acc hp, backfillStore_store_ne lk _ q hq,
      backfillBucket_store]

theorem backfillOne_guid {Obj : Type} (lk pk : String) (acc : NamespaceState Obj)
    (pkey : String) :
    (backfillOne lk pk acc pkey).guid_index = acc.guid_index := by
  by_cases hp : pkey = pk
  · rw [backfillOne_self lk pk acc hp]
  · rw [backfillOne_ne lk pk acc hp, backfillStore_guid, backfillBucket_guid]

/-- The back-fill loop of `_add_new_label` never touches the record being
indexed. -/
theorem addNewLabel_store_self {Obj : Type} (ns : NamespaceState Obj)
    (lk pk : String) :
    lookupKey (addNewLabel ns lk pk).store pk = lookupKey ns.store pk := by
  have hfold : ∀ (l : List String) (s : NamespaceState Obj),
      lookupKey s.store pk = lookupKey ns.store pk →
      lookupKey (l.foldl (backfillOne lk pk) s).store pk = lookupKey ns.store pk := by
    intro l s hs
    refine foldl_invariant
      (fun s' : NamespaceState Obj => lookupKey s'.store pk = lookupKey ns.store pk)
      (backfillOne lk pk) l s hs ?_
    intro s' a _ hp
    by_cases hap : a = pk
    · rw [backfillOne_self lk pk s' hap]; exact hp
    · rw [backfillOne_store_at lk pk s' a pk (fun he => hap he.symm)]; exact hp
  unfold addNewLabel
  by_cases h : (lookupKey ns.label_index lk).isSome
  · rw [if_pos h]
    exact hfold _ _ rfl
  · rw [if_neg h]
    exact hfold _ _ rfl

theorem addNewLabel_guid {Obj : Type} (ns : NamespaceState Obj) (lk pk : String) :
    (addNewLabel ns lk pk).guid_index = ns.guid_index := by
  have hfold : ∀ (l : List String) (s : NamespaceState Obj),
      s.guid_index = ns.guid_index →
      (l.foldl (backfillOne lk pk) s).guid_index = ns.guid_index := by
    intro l s hs
    refine foldl_invariant
      (fun s' : NamespaceState Obj => s'.guid_index = ns.guid_index)
      (backfillOne lk pk) l s hs ?_
    intro s' a _ hp
    rw [backfillOne_guid]
    exact hp
  unfold addNewLabel
  by_cases h : (lookupKey ns.label_index lk).isSome
  · rw [if_pos h]
    exact hfold _ _ rfl
  · rw [if_neg h]
    exact hfold _ _ rfl

theorem indexIntoBucket_absent {Obj : Type} (ns1 : NamespaceState Obj)
    (pk : String) {k : String} (v : LabelValue)
    (h : lookupKey ns1.label_index k = none) :
    indexIntoBucket ns1 pk k v = ns1 := by
  unfold indexIntoBucket
  rw [h]

theorem indexIntoBucket_some {Obj : Type} (ns1 : NamespaceState Obj)
    (pk : String) {k : String} (v : LabelValue) {bm : Dict LabelValue (Finset String)}
    (h : lookupKey ns1.label_index k = some bm) :
    indexIntoBucket ns1 pk k v
      = { ns1 with label_index := setKey ns1.label_index k (setKey bm v (insert pk ((lookupKey bm v).getD ∅))) } := by
  unfold indexIntoBucket
  simp only [h]

theorem indexIntoBucket_store {Obj : Type} (ns1 : NamespaceState Obj)
    (pk k : String) (v : LabelValue) :
    (indexIntoBucket ns1 pk k v).store = ns1.store := by
  cases h : lookupKey ns1.label_index k with
  | none => rw [indexIntoBucket_absent ns1 pk v h]
  | some bm => rw [indexIntoBucket_some ns1 pk v h]

theorem indexIntoBucket_guid {Obj : Type} (ns1 : NamespaceState Obj)
    (pk k : String) (v : LabelValue) :
    (indexIntoBucket ns1 pk k v).guid_index = ns1.guid_index := by
  cases h : lookupKey ns1.label_index k with
  | none => rw [indexIntoBucket_absent ns1 pk v h]
  | some bm => rw [indexIntoBucket_some ns1 pk v h]

theorem indexOneLabel_present {Obj : Type} (ns : NamespaceState Obj)
    (pk : String) {k : String} (v : LabelValue)
    (h : (lookupKey ns.label_index k).isSome) :
    indexOneLabel ns pk k v = indexIntoBucket ns pk k v := by
  unfold indexOneLabel
  rw [if_pos h]

theorem indexOneLabel_absent {Obj : Type} (ns : NamespaceState Obj)
    (pk : String) {k : String} (v : LabelValue)
    (h : ¬(lookupKey ns.label_index k).isSome) :
    indexOneLabel ns pk k v = indexIntoBucket (addNewLabel ns k pk) pk k v := by
  unfold indexOneLabel
  rw [if_neg h]

theorem indexOneLabel_store_self {Obj : Type} (ns : NamespaceState Obj)
    (pk k : String) (v : LabelValue) :
    lookupKey (indexOneLabel ns pk k v).store pk = lookupKey ns.store pk := by
  by_cases h : (lookupKey ns.label_index k).isSome
  · rw [indexOneLabel_present ns pk v h, indexIntoBucket_store]
  · rw [indexOneLabel_absent ns pk v h, indexIntoBucket_store, addNewLabel_store_self]

theorem indexOneLabel_guid {Obj : Type} (ns : NamespaceState Obj)
    (pk k : String) (v : LabelValue) :
    (indexOneLabel ns pk k v).guid_index = ns.guid_index := by
  by_cases h : (lookupKey ns.label_index k).isSome
  · rw [indexOneLabel_present ns pk v h, indexIntoBucket_guid]
  · rw [indexOneLabel_absent ns pk v h, indexIntoBucket_guid, addNewLabel_guid]

theorem indexLabels_store_self {Obj : Type} (ns : NamespaceState Obj)
    (pk g : String) (L : Labels) :
    lookupKey (indexLabels ns pk g L).store pk = lookupKey ns.store pk := by
  unfold indexLabels
  refine foldl_invariant
    (fun s : NamespaceState Obj => lookupKey s.store pk = lookupKey ns.store pk)
    (fun acc kv => indexOneLabel acc pk kv.1 kv.2) L (indexGuid ns pk g) rfl ?_
  intro s' a _ hp
  rw [indexOneLabel_store_self]
  exact hp

/-- The whole guid-index effect of `_index_labels`: the primary key is
inserted into its guid bucket, and no other part of the guid index
changes. -/
theorem indexLabels_guid {Obj : Type} (ns : NamespaceState Obj)
    (pk g : String) (L : Labels) :
    (indexLabels ns pk g L).guid_index
      = setKey ns.guid_index g (insert pk (guidGetD ns g)) := by
  unfold indexLabels
  refine foldl_invariant
    (fun s : NamespaceState Obj =>
      s.guid_index = setKey ns.guid_index g (insert pk (guidGetD ns g)))
    (fun acc kv => indexOneLabel acc pk kv.1 kv.2) L (indexGuid ns pk g) rfl ?_
  intro s' a _ hp
  rw [indexOneLabel_guid]
  exact hp

theorem deindexOne_store {Obj : Type} (pk : String) (acc : NamespaceState Obj)
    (kv : String × LabelValue) : (deindexOne pk acc kv).store = acc.store := by
  unfold deindexOne
  cases h1 : lookupKey acc.label_index kv.1 with
  | none => rfl
  | some bm =>
      simp only [h1]
      cases h2 : lookupKey bm kv.2 with
      | none => rfl
      | some b =>
          simp only [h2]
          split <;> split <;> rfl

theorem deindexLabels_store {Obj : Type} (ns : NamespaceState Obj)
    (pk g : String) (L : Labels) : (deindexLabels ns pk g L).store = ns.store := by
  unfold deindexLabels
  have hbase : (match lookupKey ns.guid_index g with
      | none => ns
      | some b =>
          let b' := b.erase pk
          if b' = ∅ then { ns with guid_index := removeKey ns.guid_index g }
          else { ns with guid_index := setKey ns.guid_index g b' }).store = ns.store := by
    cases h : lookupKey ns.guid_index g with
    | none => rfl
    | some b =>
        simp only [h]
        by_cases hb : b.erase pk = ∅ <;> simp [hb]
  refine foldl_invariant (fun s : NamespaceState Obj => s.store = ns.store)
    (deindexOne pk) L _ hbase ?_
  intro s' a _ hp
  rw [deindexOne_store]
  exact hp

/-! ### Bucket-level effects of `_index_labels` -/

/-- Bucket lookup on a raw label index. -/
def bucketOf (li : Dict String (Dict LabelValue (Finset String)))
    (k : String) (v : LabelValue) : Finset String :=
  ((lookupKey li k).bind (fun bm => lookupKey bm v)).getD ∅

theorem bucketGetD_eq_bucketOf {Obj : Type} (ns : NamespaceState Obj)
    (k : String) (v : LabelValue) : bucketGetD ns k v = bucketOf ns.label_index k v := rfl

theorem bucketGetD_mk {Obj : Type} (s : Dict String (StoreModel Obj))
    (li : Dict String (Dict LabelValue (Finset String)))
    (gi : Dict String (Finset String)) (k : String) (v : LabelValue) :
    bucketGetD (⟨s, li, gi⟩ : NamespaceState Obj) k v = bucketOf li k v := rfl

theorem bucketOf_absent (li : Dict String (Dict LabelValue (Finset String)))
    (k : String) (v : LabelValue) (h : lookupKey li k = none) :
    bucketOf li k v = ∅ := by
  unfold bucketOf
  rw [h]
  rfl

theorem bucketOf_of_lookup {li : Dict String (Dict LabelValue (Finset String))}
    {k : String} {bm : Dict LabelValue (Finset String)} (v : LabelValue)
    (h : lookupKey li k = some bm) :
    bucketOf li k v = (lookupKey bm v).getD ∅ := by
  unfold bucketOf
  rw [h]
  rfl

theorem bucketOf_setKey_self (li : Dict String (Dict LabelValue (Finset String)))
    (k : String) (bm : Dict LabelValue (Finset String)) (v : LabelValue) :
    bucketOf (setKey li k bm) k v = (lookupKey bm v).getD ∅ := by
  unfold bucketOf
  rw [lookupKey_setKey_self]
  rfl

theorem bucketOf_setKey_ne (li : Dict String (Dict LabelValue (Finset String)))
    (k : String) (bm : Dict LabelValue (Finset String)) (k' : String)
    (v : LabelValue) (h : k ≠ k') :
    bucketOf (setKey li k bm) k' v = bucketOf li k' v := by
  unfold bucketOf
  rw [lookupKey_setKey_ne _ _ _ _ h]

theorem backfillOne_label_ne {Obj : Type} (lk pk : String) (acc : NamespaceState Obj)
    (pkey : String) (k : String) (hk : k ≠ lk) :
    lookupKey (backfillOne lk pk acc pkey).label_index k = lookupKey acc.label_index k := by
  by_cases hp : pkey = pk
  · rw [backfillOne_self lk pk acc hp]
  · rw [backfillOne_ne lk pk acc hp, backfillStore_label]
    cases hbm : lookupKey acc.label_index lk with
    | none => rw [backfillBucket_absent pkey hbm]
    | some bm =>
        cases hv : lookupKey bm LabelValue.vnone with
        | none => rw [backfillBucket_noBucket pkey hbm hv]
        | some b =>
            rw [backfillBucket_some pkey hbm hv]
            exact lookupKey_setKey_ne acc.label_index lk k _ (fun he => hk he.symm)

theorem addNewLabel_label_ne {Obj : Type} (ns : NamespaceState Obj)
    (lk pk : String) (k : String) (hk : k ≠ lk) :
    lookupKey (addNewLabel ns lk pk).label_index k = lookupKey ns.label_index k := by
  have hfold : ∀ (l : List String) (s : NamespaceState Obj),
      lookupKey s.label_index k = lookupKey ns.label_index k →
      lookupKey (l.foldl (backfillOne lk pk) s).label_index k
        = lookupKey ns.label_index k := by
    intro l s hs
    refine foldl_invariant
      (fun s' : NamespaceState Obj =>
        lookupKey s'.label_index k = lookupKey ns.label_index k)
      (backfillOne lk pk) l s hs ?_
    intro s' a _ hp
    rw [backfillOne_label_ne lk pk s' a k hk]
    exact hp
  unfold addNewLabel
  by_cases h : (lookupKey ns.label_index lk).isSome
  · rw [if_pos h]
    exact hfold _ _ rfl
  · rw [if_neg h]
    refine hfold _ _ ?_
    exact lookupKey_setKey_ne ns.label_index lk k _ (fun he => hk he.symm)

theorem indexIntoBucket_label_ne {Obj : Type} (ns1 : NamespaceState Obj)
    (pk : String) (k2 : String) (v2 : LabelValue) (k : String) (hk : k ≠ k2) :
    lookupKey (indexIntoBucket ns1 pk k2 v2).label_index k = lookupKey ns1.label_index k := by
  cases h : lookupKey ns1.label_index k2 with
  | none => rw [indexIntoBucket_absent ns1 pk v2 h]
  | some bm =>
      rw [indexIntoBucket_some ns1 pk v2 h]
      exact lookupKey_setKey_ne ns1.label_index k2 k _ (fun he => hk he.symm)

theorem indexOneLabel_label_ne {Obj : Type} (acc : NamespaceState Obj)
    (pk : String) (k2 : String) (v2 : LabelValue) (k : String) (hk : k ≠ k2) :
    lookupKey (indexOneLabel acc pk k2 v2).label_index k = lookupKey acc.label_index k := by
  by_cases h : (lookupKey acc.label_index k2).isSome
  · rw [indexOneLabel_present acc pk v2 h, indexIntoBucket_label_ne _ _ _ _ _ hk]
  · rw [indexOneLabel_absent acc pk v2 h, indexIntoBucket_label_ne _ _ _ _ _ hk,
      addNewLabel_label_ne acc k2 pk k hk]

/-- The back-fill loop keeps the new label key present in the index. -/
theorem backfill_fold_key_present {Obj : Type} (lk pk : String)
    (l : List String) (s : NamespaceState Obj)
    (hs : (lookupKey s.label_index lk).isSome) :
    (lookupKey (l.foldl (backfillOne lk pk) s).label_index lk).isSome := by
  refine foldl_invariant
    (fun s' : NamespaceState Obj => (lookupKey s'.label_index lk).isSome)
    (backfillOne lk pk) l s hs ?_
  intro s' a _ hp
  obtain ⟨bm, hbm⟩ := Option.isSome_iff_exists.mp hp
  by_cases hap : a = pk
  · rw [backfillOne_self lk pk s' hap]
    exact hp
  · rw [backfillOne_ne lk pk s' hap, backfillStore_label]
    cases hv : lookupKey bm LabelValue.vnone with
    | none => rw [backfillBucket_noBucket a hbm hv]; exact hp
    | some b =>
        rw [backfillBucket_some a hbm hv]
        show (lookupKey (setKey s'.label_index lk _) lk).isSome
        rw [lookupKey_setKey_self]
        rfl

theorem addNewLabel_key_present {Obj : Type} (ns : NamespaceState Obj)
    (lk pk : String) :
    (lookupKey (addNewLabel ns lk pk).label_index lk).isSome := by
  unfold addNewLabel
  by_cases h : (lookupKey ns.label_index lk).isSome
  · rw [if_pos h]
    exact backfill_fold_key_present lk pk _ _ h
  · rw [if_neg h]
    refine backfill_fold_key_present lk pk _ _ ?_
    show (lookupKey (setKey ns.label_index lk _) lk).isSome
    rw [lookupKey_setKey_self]
    rfl

/-- Bucket membership is monotone under the back-fill steps. -/
theorem backfillOne_bucket_mono {Obj : Type} (lk pk : String) (acc : NamespaceState Obj)
    (pkey : String) (k : String) (v : LabelValue) (q : String)
    (h : q ∈ bucketGetD acc k v) :
    q ∈ bucketGetD (backfillOne lk pk acc pkey) k v := by
  by_cases hp : pkey = pk
  · rw [backfillOne_self lk pk acc hp]; exact h
  · rw [backfillOne_ne lk pk acc hp]
    have hbb : q ∈ bucketGetD (backfillBucket lk pkey acc) k v := by
      cases hbm : lookupKey acc.label_index lk with
      | none => rw [backfillBucket_absent pkey hbm]; exact h
      | some bm =>
          cases hv : lookupKey bm LabelValue.vnone with
          | none => rw [backfillBucket_noBucket pkey hbm hv]; exact h
          | some b =>
              rw [backfillBucket_some pkey hbm hv, bucketGetD_mk]
              rw [bucketGetD_eq_bucketOf] at h
              by_cases hk : lk = k
              · subst hk
                rw [bucketOf_setKey_self]
                rw [bucketOf_of_lookup v hbm] at h
                by_cases hveq : LabelValue.vnone = v
                · subst hveq
                  rw [lookupKey_setKey_self, Option.getD_some]
                  rw [hv, Option.getD_some] at h
                  exact Finset.mem_insert_of_mem h
                · rw [lookupKey_setKey_ne bm LabelValue.vnone v _ hveq]
                  exact h
              · rw [bucketOf_setKey_ne acc.label_index lk _ k v hk]
                exact h
    rw [bucketGetD_eq_bucketOf] at hbb ⊢
    rw [backfillStore_label]
    exact hbb

theorem addNewLabel_bucket_mono {Obj : Type} (ns : NamespaceState Obj)
    (lk pk : String) (k : String) (v : LabelValue) (q : String)
    (h : q ∈ bucketGetD ns k v) :
    q ∈ bucketGetD (addNewLabel ns lk pk) k v := by
  have hfold : ∀ (l : List String) (s : NamespaceState Obj),
      q ∈ bucketGetD s k v →
      q ∈ bucketGetD (l.foldl (backfillOne lk pk) s) k v := by
    intro l s hs
    refine foldl_invariant
      (fun s' : NamespaceState Obj => q ∈ bucketGetD s' k v)
      (backfillOne lk pk) l s hs ?_
    intro s' a _ hp
    exact backfillOne_bucket_mono lk pk s' a k v q hp
  unfold addNewLabel
  by_cases hpres : (lookupKey ns.label_index lk).isSome
  · rw [if_pos hpres]
    exact hfold _ _ h
  · rw [if_neg hpres]
    have habs : lookupKey ns.label_index lk = none :=
      Option.not_isSome_iff_eq_none.mp hpres
    refine hfold _ _ ?_
    rw [bucketGetD_mk]
    rw [bucketGetD_eq_bucketOf] at h
    by_cases hk : lk = k
    · subst hk
      rw [bucketOf_absent _ _ _ habs] at h
      simp at h
    · rw [bucketOf_setKey_ne ns.label_index lk _ k v hk]
      exact h

theorem indexIntoBucket_bucket_mono {Obj : Type} (ns1 : NamespaceState Obj)
    (pk : String) (k2 : String) (v2 : LabelValue) (k : String) (v : LabelValue)
    (q : String) (h : q ∈ bucketGetD ns1 k v) :
    q ∈ bucketGetD (indexIntoBucket ns1 pk k2 v2) k v := by
  cases hbm : lookupKey ns1.label_index k2 with
  | none => rw [indexIntoBucket_absent ns1 pk v2 hbm]; exact h
  | some bm =>
      rw [indexIntoBucket_some ns1 pk v2 hbm, bucketGetD_mk]
      rw [bucketGetD_eq_bucketOf] at h
      by_cases hk : k2 = k
      · subst hk
        rw [bucketOf_setKey_self]
        rw [bucketOf_of_lookup v hbm] at h
        by_cases hveq : v2 = v
        · subst hveq
          rw [lookupKey_setKey_self, Option.getD_some]
          exact Finset.mem_insert_of_mem h
        · rw [lookupKey_setKey_ne bm v2 v _ hveq]
          exact h
      · rw [bucketOf_setKey_ne ns1.label_index k2 _ k v hk]
        exact h

theorem indexOneLabel_bucket_mono {Obj : Type} (acc : NamespaceState Obj)
    (pk : String) (k2 : String) (v2 : LabelValue) (k : String) (v : LabelValue)
    (q : String) (h : q ∈ bucketGetD acc k v) :
    q ∈ bucketGetD (indexOneLabel acc pk k2 v2) k v := by
  by_cases hp : (lookupKey acc.label_index k2).isSome
  · rw [indexOneLabel_present acc pk v2 hp]
    exact indexIntoBucket_bucket_mono acc pk k2 v2 k v q h
  · rw [indexOneLabel_absent acc pk v2 hp]
    exact indexIntoBucket_bucket_mono (addNewLabel acc k2 pk) pk k2 v2 k v q
      (addNewLabel_bucket_mono acc k2 pk k v q h)

set_option maxHeartbeats 1000000 in
theorem indexLabels_bucket_mono {Obj : Type} (ns : NamespaceState Obj)
    (pk g : String) (L : Labels) (k : String) (v : LabelValue) (q : String)
    (h : q ∈ bucketGetD ns k v) :
    q ∈ bucketGetD (indexLabels ns pk g L) k v := by
  unfold indexLabels
  refine foldl_invariant
    (fun s : NamespaceState Obj => q ∈ bucketGetD s k v)
    (fun acc kv => indexOneLabel acc pk kv.1 kv.2) L (indexGuid ns pk g) ?_ ?_
  · show q ∈ bucketGetD (indexGuid ns pk g) k v
    rw [bucketGetD_eq_bucketOf,
      show (indexGuid ns pk g).label_index = ns.label_index from rfl]
    exact h
  · intro s' a _ hp
    exact indexOneLabel_bucket_mono s' pk a.1 a.2 k v q hp

/-- After the step for `(k, v)`, the indexed primary key is in that
bucket. -/
theorem indexOneLabel_self_mem {Obj : Type} (acc : NamespaceState Obj)
    (pk : String) (k : String) (v : LabelValue) :
    pk ∈ bucketGetD (indexOneLabel acc pk k v) k v := by
  have hbucket : ∀ ns1 : NamespaceState Obj,
      (lookupKey ns1.label_index k).isSome →
      pk ∈ bucketGetD (indexIntoBucket ns1 pk k v) k v := by
    intro ns1 h1
    obtain ⟨bm, hbm⟩ := Option.isSome_iff_exists.mp h1
    rw [indexIntoBucket_some ns1 pk v hbm, bucketGetD_mk, bucketOf_setKey_self,
      lookupKey_setKey_self, Option.getD_some]
    exact Finset.mem_insert_self pk _
  by_cases h : (lookupKey acc.label_index k).isSome
  · rw [indexOneLabel_present acc pk v h]
    exact hbucket acc h
  · rw [indexOneLabel_absent acc pk v h]
    exact hbucket (addNewLabel acc k pk) (addNewLabel_key_present acc k pk)

set_option maxHeartbeats 1000000 in
theorem indexLabels_self_mem {Obj : Type} (ns : NamespaceState Obj)
    (pk g : String) (L : Labels) (k : String) (v : LabelValue)
    (hkv : (k, v) ∈ L) :
    pk ∈ bucketGetD (indexLabels ns pk g L) k v := by
  obtain ⟨L1, L2, hL⟩ := List.append_of_mem hkv
  subst hL
  unfold indexLabels
  rw [List.foldl_append, List.foldl_cons]
  refine foldl_invariant
    (fun s : NamespaceState Obj => pk ∈ bucketGetD s k v)
    (fun acc kv => indexOneLabel acc pk kv.1 kv.2) L2 _
    (indexOneLabel_self_mem _ pk k v) ?_
  intro s' a _ hp
  exact indexOneLabel_bucket_mono s' pk a.1 a.2 k v pk hp

theorem indexLabels_guid_self_mem {Obj : Type} (ns : NamespaceState Obj)
    (pk g : String) (L : Labels) :
    pk ∈ guidGetD (indexLabels ns pk g L) g := by
  unfold guidGetD
  rw [indexLabels_guid, lookupKey_setKey_self]
  exact Finset.mem_insert_self pk _

theorem indexLabels_guid_mono {Obj : Type} (ns : NamespaceState Obj)
    (pk g : String) (L : Labels) (g' : String) (q : String)
    (h : q ∈ guidGetD ns g') :
    q ∈ guidGetD (indexLabels ns pk g L) g' := by
  unfold guidGetD at h ⊢
  rw [indexLabels_guid]
  by_cases hg : g = g'
  · subst hg
    rw [lookupKey_setKey_self]
    exact Finset.mem_insert_of_mem h
  · rw [lookupKey_setKey_ne ns.guid_index g g' _ hg]
    exact h

theorem indexLabels_guid_upper {Obj : Type} (ns : NamespaceState Obj)
    (pk g : String) (L : Labels) (g' : String) (q : String) (hq : q ≠ pk)
    (h : q ∈ guidGetD (indexLabels ns pk g L) g') :
    q ∈ guidGetD ns g' := by
  unfold guidGetD at h ⊢
  rw [indexLabels_guid] at h
  by_cases hg : g = g'
  · subst hg
    rw [lookupKey_setKey_self, Option.getD_some] at h
    rcases Finset.mem_insert.mp h with he | hm
    · exact absurd he hq
    · exact hm
  · rw [lookupKey_setKey_ne ns.guid_index g g' _ hg] at h
    exact h

/-! ### The back-fill's effect on other records -/

/-- Once a record's labels already carry `lk -> None`, further back-fill
passes leave it unchanged. -/
theorem backfill_fold_store_fixed {Obj : Type} (lk pk q : String) :
    ∀ (l : List String) (s : NamespaceState Obj) (m : StoreModel Obj),
    lookupKey s.store q = some m → q ≠ pk →
    { m with labels := setKey m.labels lk LabelValue.vnone } = m →
    lookupKey (l.foldl (backfillOne lk pk) s).store q = some m := by
  intro l
  induction l with
  | nil => intro s m hm _ _; exact hm
  | cons a rest ih =>
      intro s m hm hq hfix
      rw [List.foldl_cons]
      by_cases hap : a = pk
      · exact ih _ m (by rw [backfillOne_self lk pk s hap]; exact hm) hq hfix
      · by_cases haq : a = q
        · subst haq
          refine ih _ m ?_ hq hfix
          rw [backfillOne_ne lk pk s hap]
          have hbb : lookupKey (backfillBucket lk a s).store a = some m := by
            rw [backfillBucket_store]; exact hm
          rw [backfillStore_some lk hbb, show ({ backfillBucket lk a s with store := setKey (backfillBucket lk a s).store a { m with labels := setKey m.labels lk LabelValue.vnone } } : NamespaceState Obj).store = setKey (backfillBucket lk a s).store a { m with labels := setKey m.labels lk LabelValue.vnone } from rfl]
          rw [hfix]
          exact lookupKey_setKey_self _ _ _
        · refine ih _ m ?_ hq hfix
          rw [backfillOne_store_at lk pk s a q (fun he => haq he.symm)]
          exact hm

/-- A record other than the one being indexed, present in the iterated
key list, ends the back-fill with `lk -> None` written into its labels. -/
theorem backfill_fold_store_updates {Obj : Type} (lk pk q : String) :
    ∀ (l : List String) (s : NamespaceState Obj) (m : StoreModel Obj),
    lookupKey s.store q = some m → q ∈ l → q ≠ pk →
    lookupKey (l.foldl (backfillOne lk pk) s).store q
      = some { m with labels := setKey m.labels lk LabelValue.vnone } := by
  intro l
  induction l with
  | nil => intro s m _ hmem _; simp at hmem
  | cons a rest ih =>
      intro s m hm hmem hq
      rw [List.foldl_cons]
      by_cases haq : a = q
      · subst haq
        have hap : a ≠ pk := hq
        refine backfill_fold_store_fixed lk pk a rest _ _ ?_ hq ?_
        · rw [backfillOne_ne lk pk s hap]
          have hbb : lookupKey (backfillBucket lk a s).store a = some m := by
            rw [backfillBucket_store]; exact hm
          rw [backfillStore_some lk hbb, show ({ backfillBucket lk a s with store := setKey (backfillBucket lk a s).store a { m with labels := setKey m.labels lk LabelValue.vnone } } : NamespaceState Obj).store = setKey (backfillBucket lk a s).store a { m with labels := setKey m.labels lk LabelValue.vnone } from rfl]
          exact lookupKey_setKey_self _ _ _
        · show ({ { m with labels := setKey m.labels lk LabelValue.vnone } with labels := setKey (setKey m.labels lk LabelValue.vnone) lk LabelValue.vnone } : StoreModel Obj) = _
          rw [setKey_setKey_same]
      · have hmem' : q ∈ rest := by
          rcases List.mem_cons.mp hmem with he | hr
          · exact absurd he.symm haq
          · exact hr
        by_cases hap : a = pk
        · exact ih _ m (by rw [backfillOne_self lk pk s hap]; exact hm) hmem' hq
        · refine ih _ m ?_ hmem' hq
          rw [backfillOne_store_at lk pk s a q (fun he => haq he.symm)]
          exact hm

theorem addNewLabel_store_backfilled {Obj : Type} (ns : NamespaceState Obj)
    (lk pk q : String) (m : StoreModel Obj)
    (hq : q ≠ pk) (hm : lookupKey ns.store q = some m) :
    lookupKey (addNewLabel ns lk pk).store q
      = some { m with labels := setKey m.labels lk LabelValue.vnone } := by
  unfold addNewLabel
  by_cases h : (lookupKey ns.label_index lk).isSome
  · rw [if_pos h]
    exact backfill_fold_store_updates lk pk q _ _ m hm
      (mem_keys_of_lookupKey_isSome _ _ (by rw [hm]; rfl)) hq
  · rw [if_neg h]
    exact backfill_fold_store_updates lk pk q _ _ m hm
      (mem_keys_of_lookupKey_isSome _ _ (by rw [hm]; rfl)) hq

/-- One `_index_labels` step either leaves another record untouched, or —
exactly when the step's key is new to the index — writes `key -> None`
into its labels. -/
theorem indexOneLabel_store_other {Obj : Type} (acc : NamespaceState Obj)
    (pk : String) (k2 : String) (v2 : LabelValue) (q : String)
    (m : StoreModel Obj) (hq : q ≠ pk) (hm : lookupKey acc.store q = some m) :
    lookupKey (indexOneLabel acc pk k2 v2).store q = some m
    ∨ (lookupKey acc.label_index k2 = none
        ∧ lookupKey (indexOneLabel acc pk k2 v2).store q
          = some { m with labels := setKey m.labels k2 LabelValue.vnone }) := by
  by_cases h : (lookupKey acc.label_index k2).isSome
  · left
    rw [indexOneLabel_present acc pk v2 h]
    have := indexIntoBucket_store acc pk k2 v2
    rw [show lookupKey (indexIntoBucket acc pk k2 v2).store q = lookupKey acc.store q from by rw [this]]
    exact hm
  · right
    refine ⟨Option.not_isSome_iff_eq_none.mp h, ?_⟩
    rw [indexOneLabel_absent acc pk v2 h]
    have hst := indexIntoBucket_store (addNewLabel acc k2 pk) pk k2 v2
    rw [show lookupKey (indexIntoBucket (addNewLabel acc k2 pk) pk k2 v2).store q = lookupKey (addNewLabel acc k2 pk).store q from by rw [hst]]
    exact addNewLabel_store_backfilled acc k2 pk q m hq hm

/-- The vnone bucket of the new key exists throughout the back-fill. -/
theorem backfill_fold_vnone_exists {Obj : Type} (lk pk : String)
    (l : List String) (s : NamespaceState Obj)
    (hs : ∃ bm b, lookupKey s.label_index lk = some bm
        ∧ lookupKey bm LabelValue.vnone = some b) :
    ∃ bm b, lookupKey (l.foldl (backfillOne lk pk) s).label_index lk = some bm
      ∧ lookupKey bm LabelValue.vnone = some b := by
  refine foldl_invariant
    (fun s' : NamespaceState Obj => ∃ bm b, lookupKey s'.label_index lk = some bm
      ∧ lookupKey bm LabelValue.vnone = some b)
    (backfillOne lk pk) l s hs ?_
  intro s' a _ hp
  obtain ⟨bm, b, hbm, hv⟩ := hp
  by_cases hap : a = pk
  · rw [backfillOne_self lk pk s' hap]
    exact ⟨bm, b, hbm, hv⟩
  · rw [backfillOne_ne lk pk s' hap, backfillStore_label, backfillBucket_some a hbm hv]
    refine ⟨setKey bm LabelValue.vnone (insert a b), insert a b, ?_, ?_⟩
    · exact lookupKey_setKey_self _ _ _
    · exact lookupKey_setKey_self _ _ _

/-- Every other record in the store is added to the new key's `None`
bucket by the back-fill. -/
theorem backfill_fold_bucket_backfilled {Obj : Type} (lk pk q : String) :
    ∀ (l : List String) (s : NamespaceState Obj),
    (∃ bm b, lookupKey s.label_index lk = some bm
      ∧ lookupKey bm LabelValue.vnone = some b) →
    q ∈ l → q ≠ pk →
    q ∈ bucketGetD (l.foldl (backfillOne lk pk) s) lk LabelValue.vnone := by
  intro l
  induction l with
  | nil => intro s _ hmem _; simp at hmem
  | cons a rest ih =>
      intro s hex hmem hq
      rw [List.foldl_cons]
      by_cases haq : a = q
      · subst haq
        obtain ⟨bm, b, hbm, hv⟩ := hex
        have hstep : a ∈ bucketGetD (backfillOne lk pk s a) lk LabelValue.vnone := by
          rw [backfillOne_ne lk pk s hq]
          rw [bucketGetD_eq_bucketOf, backfillStore_label, backfillBucket_some a hbm hv]
          rw [show ({ s with label_index := setKey s.label_index lk (setKey bm LabelValue.vnone (insert a b)) } : NamespaceState Obj).label_index = setKey s.label_index lk (setKey bm LabelValue.vnone (insert a b)) from rfl]
          rw [bucketOf_setKey_self, lookupKey_setKey_self, Option.getD_some]
          exact Finset.mem_insert_self a b
        refine foldl_invariant
          (fun s' : NamespaceState Obj => a ∈ bucketGetD s' lk LabelValue.vnone)
          (backfillOne lk pk) rest _ hstep ?_
        intro s' a' _ hp
        exact backfillOne_bucket_mono lk pk s' a' lk LabelValue.vnone a hp
      · have hmem' : q ∈ rest := by
          rcases List.mem_cons.mp hmem with he | hr
          · exact absurd he.symm haq
          · exact hr
        refine ih _ ?_ hmem' hq
        obtain ⟨bm, b, hbm, hv⟩ := hex
        by_cases hap : a = pk
        · rw [backfillOne_self lk pk s hap]
          exact ⟨bm, b, hbm, hv⟩
        · rw [backfillOne_ne lk pk s hap, backfillStore_label, backfillBucket_some a hbm hv]
          exact ⟨setKey bm LabelValue.vnone (insert a b), insert a b,
            lookupKey_setKey_self _ _ _, lookupKey_setKey_self _ _ _⟩

theorem addNewLabel_bucket_backfilled {Obj : Type} (ns : NamespaceState Obj)
    (lk pk q : String) (hq : q ≠ pk)
    (hmem : (lookupKey ns.store q).isSome)
    (habs : lookupKey ns.label_index lk = none) :
    q ∈ bucketGetD (addNewLabel ns lk pk) lk LabelValue.vnone := by
  unfold addNewLabel
  rw [if_neg (by rw [habs]; simp)]
  refine backfill_fold_bucket_backfilled lk pk q _ _ ?_ ?_ hq
  · refine ⟨[(LabelValue.vnone, ∅)], ∅, ?_, rfl⟩
    show lookupKey (setKey ns.label_index lk [(LabelValue.vnone, ∅)]) lk = _
    exact lookupKey_setKey_self _ _ _
  · exact mem_keys_of_lookupKey_isSome _ _ hmem

theorem indexOneLabel_bucket_backfilled {Obj : Type} (acc : NamespaceState Obj)
    (pk : String) (k : String) (v : LabelValue) (q : String) (hq : q ≠ pk)
    (hmem : (lookupKey acc.store q).isSome)
    (habs : lookupKey acc.label_index k = none) :
    q ∈ bucketGetD (indexOneLabel acc pk k v) k LabelValue.vnone := by
  rw [indexOneLabel_absent acc pk v (by rw [habs]; simp)]
  exact indexIntoBucket_bucket_mono (addNewLabel acc k pk) pk k v k LabelValue.vnone q
    (addNewLabel_bucket_backfilled acc k pk q hq hmem habs)

/-! ### Decryption of freshly encrypted values, and namespace plumbing -/

theorem decrypt_encrypt {Obj : Type} (cfg : StoreConfig Obj) (v : ValueDict Obj) :
    Store.decryptValue cfg (Store.encryptValue cfg v) = some (Store.hashValue cfg v) := by
  rw [Store.decryptValue, multiFernet_decrypt_eq]
  simp [Store.encryptValue, Fernet.encrypt, StoreConfig.encryptionKeys]

theorem ensureNamespaceExists_spec {Obj : Type} (cfg : StoreConfig Obj)
    (st : StoreState Obj) (nsArg : Option String) :
    (ensureNamespaceExists cfg st nsArg).1 = getNamespaceName cfg nsArg
    ∧ ∃ ns, lookupKey (ensureNamespaceExists cfg st nsArg).2.namespaces
        (getNamespaceName cfg nsArg) = some ns := by
  unfold ensureNamespaceExists
  by_cases h : (lookupKey st.namespaces (getNamespaceName cfg nsArg)).isSome
  · rw [if_pos h]
    exact ⟨rfl, Option.isSome_iff_exists.mp h⟩
  · rw [if_neg h]
    exact ⟨rfl, ⟨NamespaceState.empty Obj, by simp [setNs, lookupKey_setKey_self]⟩⟩

/-- **C4** (confirmed): storing a bundle and reading it back by primary
key returns `user`, `callback` and `state` unchanged, while `admin` is
`{"hash": h}` with `h` the hex SHA-256 of the key-sorted JSON of the
original admin object — the read path reconstructs only the hash, never
the admin object itself (the labels and guid also round-trip). -/
theorem C4_roundtrip {Obj : Type} (cfg : StoreConfig Obj) (st : StoreState Obj)
    (B : ValueDict Obj) (g : String) (L : Labels) (pk : String)
    (nsArg : Option String) (throw : Bool) (r : String) (st' : StoreState Obj)
    (hput : putByPrimaryKey cfg st B g L pk nsArg throw = (.ok r, st')) :
    r = pk
    ∧ getByPrimaryKey cfg st' pk nsArg
      = (.ok ⟨pk, ⟨B.user, ⟨cfg.sha256hex (cfg.dumps B.admin)⟩, B.callback, B.state⟩, L, g⟩, st') := by
  obtain ⟨hfst, ns, hns⟩ := ensureNamespaceExists_spec cfg st nsArg
  have hget : ∀ ns' : NamespaceState Obj,
      lookupKey ns'.store pk = some ⟨Store.encryptValue cfg B, L, g⟩ →
      getByPrimaryKey cfg (setNs (ensureNamespaceExists cfg st nsArg).2
          (getNamespaceName cfg nsArg) ns') pk nsArg
        = (.ok ⟨pk, ⟨B.user, ⟨cfg.sha256hex (cfg.dumps B.admin)⟩, B.callback, B.state⟩, L, g⟩,
            setNs (ensureNamespaceExists cfg st nsArg).2 (getNamespaceName cfg nsArg) ns') := by
    intro ns' hm
    have hlook : lookupKey (setNs (ensureNamespaceExists cfg st nsArg).2
        (getNamespaceName cfg nsArg) ns').namespaces (getNamespaceName cfg nsArg)
        = some ns' := lookupKey_setKey_self _ _ _
    simp only [getByPrimaryKey, getNamespaceChecked, hlook, Option.isSome_some,
      if_pos, hm, decryptModel, decrypt_encrypt]
    rfl
  simp only [putByPrimaryKey, hfst, hns] at hput
  by_cases hex : (lookupKey ns.store pk).isSome
  · obtain ⟨cur, hcur⟩ := Option.isSome_iff_exists.mp hex
    simp only [updateExistingPkey, hcur, Option.isSome_some, if_true] at hput
    by_cases hg : cur.guid = g
    · rw [if_neg (by simp [hg])] at hput
      simp only [Prod.mk.injEq] at hput
      obtain ⟨h1, h2⟩ := hput
      injection h1 with h1
      refine ⟨h1.symm, ?_⟩
      rw [← h2]
      refine hget _ ?_
      rw [indexLabels_store_self]
      exact lookupKey_setKey_self _ _ _
    · rw [if_pos (by simp [hg])] at hput
      simp at hput
  · have habs : lookupKey ns.store pk = none := Option.not_isSome_iff_eq_none.mp hex
    simp only [habs, Option.isSome_none, Bool.false_eq_true, if_false] at hput
    cases throw with
    | true => simp at hput
    | false =>
        simp only [insertGivenPkey, habs, Option.isSome_none, Bool.false_eq_true,
          if_false] at hput
        simp only [Prod.mk.injEq] at hput
        obtain ⟨h1, h2⟩ := hput
        injection h1 with h1
        refine ⟨h1.symm, ?_⟩
        rw [← h2]
        refine hget _ ?_
        rw [indexLabels_store_self]
        exact lookupKey_setKey_self _ _ _

/-- Witness for C4: a concrete put followed by a get. -/
theorem C4_roundtrip_witness :
    ("p1" : String) = "p1"
    ∧ getByPrimaryKey (⟨"K", [], "default", id, toString, id⟩ : StoreConfig Nat)
        (putByPrimaryKey ⟨"K", [], "default", id, toString, id⟩ ⟨[], [], []⟩
          ⟨7, 8, some 9, none⟩ "slack" [("team", .vstr "eng")] "p1" (some "acme") false).2
        "p1" (some "acme")
      = (.ok ⟨"p1", ⟨7, ⟨toString (8 : Nat)⟩, some 9, none⟩, [("team", .vstr "eng")], "slack"⟩,
          (putByPrimaryKey ⟨"K", [], "default", id, toString, id⟩ ⟨[], [], []⟩
            ⟨7, 8, some 9, none⟩ "slack" [("team", .vstr "eng")] "p1" (some "acme") false).2) :=
  C4_roundtrip ⟨"K", [], "default", id, toString, id⟩ ⟨[], [], []⟩
    ⟨7, 8, some 9, none⟩ "slack" [("team", .vstr "eng")] "p1" (some "acme") false
    "p1" _ (by decide)

/-- Witness for the amended C8 on a concrete store. -/
theorem C8_default_explicit_same_as_absent_witness :
    putByPrimaryKey (⟨"K", [], "default", id, toString, id⟩ : StoreConfig Nat)
        ⟨[], [], []⟩ ⟨0, 0, none, none⟩ "g" [] "p1" (some "default") false
      = putByPrimaryKey ⟨"K", [], "default", id, toString, id⟩
        ⟨[], [], []⟩ ⟨0, 0, none, none⟩ "g" [] "p1" none false
    ∧ putByLabels (⟨"K", [], "default", id, toString, id⟩ : StoreConfig Nat)
        ⟨[], [], []⟩ ⟨0, 0, none, none⟩ "g" [] (some "default")
      = putByLabels ⟨"K", [], "default", id, toString, id⟩
        ⟨[], [], []⟩ ⟨0, 0, none, none⟩ "g" [] none
    ∧ getByPrimaryKey (⟨"K", [], "default", id, toString, id⟩ : StoreConfig Nat)
        ⟨[], [], []⟩ "p1" (some "default")
      = getByPrimaryKey ⟨"K", [], "default", id, toString, id⟩ ⟨[], [], []⟩ "p1" none
    ∧ getByLabels (⟨"K", [], "default", id, toString, id⟩ : StoreConfig Nat)
        ⟨[], [], []⟩ "g" [] (some "default")
      = getByLabels ⟨"K", [], "default", id, toString, id⟩ ⟨[], [], []⟩ "g" [] none
    ∧ search (⟨"K", [], "default", id, toString, id⟩ : StoreConfig Nat)
        ⟨[], [], []⟩ (some "g") [] (some "default")
      = search ⟨"K", [], "default", id, toString, id⟩ ⟨[], [], []⟩ (some "g") [] none
    ∧ deleteByPrimaryKey (⟨"K", [], "default", id, toString, id⟩ : StoreConfig Nat)
        ⟨[], [], []⟩ "p1" (some "default")
      = deleteByPrimaryKey ⟨"K", [], "default", id, toString, id⟩ ⟨[], [], []⟩ "p1" none :=
  C8_default_explicit_same_as_absent _ _ _ _ _ _ _ rfl

/-! ### Indexing never creates store entries, and the search never touches
the store -/

theorem backfillOne_store_none {Obj : Type} (lk pk : String)
    (acc : NamespaceState Obj) (pkey q : String)
    (hq : lookupKey acc.store q = none) :
    lookupKey (backfillOne lk pk acc pkey).store q = none := by
  by_cases hpq : pkey = q
  · subst hpq
    by_cases hp : pkey = pk
    · rw [backfillOne_self lk pk acc hp]
      exact hq
    · rw [backfillOne_ne lk pk acc hp,
        backfillStore_absent lk (by rw [backfillBucket_store]; exact hq),
        backfillBucket_store]
      exact hq
  · rw [backfillOne_store_at lk pk acc pkey q (fun he => hpq he.symm)]
    exact hq

theorem addNewLabel_store_none {Obj : Type} (ns : NamespaceState Obj)
    (lk pk q : String) (hq : lookupKey ns.store q = none) :
    lookupKey (addNewLabel ns lk pk).store q = none := by
  unfold addNewLabel
  by_cases h : (lookupKey ns.label_index lk).isSome
  · rw [if_pos h]
    show lookupKey ((keysOf ns.store).foldl (backfillOne lk pk) ns).store q = none
    exact foldl_invariant
      (fun s : NamespaceState Obj => lookupKey s.store q = none)
      (backfillOne lk pk) (keysOf ns.store) ns hq
      (fun s' a _ hp => backfillOne_store_none lk pk s' a q hp)
  · rw [if_neg h]
    show lookupKey ((keysOf ({ ns with label_index := setKey ns.label_index lk [(LabelValue.vnone, ∅)] } : NamespaceState Obj).store).foldl (backfillOne lk pk) { ns with label_index := setKey ns.label_index lk [(LabelValue.vnone, ∅)] }).store q = none
    exact foldl_invariant
      (fun s : NamespaceState Obj => lookupKey s.store q = none)
      (backfillOne lk pk) _ _ hq
      (fun s' a _ hp => backfillOne_store_none lk pk s' a q hp)

theorem indexOneLabel_store_none {Obj : Type} (acc : NamespaceState Obj)
    (pk k2 : String) (v2 : LabelValue) (q : String)
    (hq : lookupKey acc.store q = none) :
    lookupKey (indexOneLabel acc pk k2 v2).store q = none := by
  by_cases h : (lookupKey acc.label_index k2).isSome
  · rw [indexOneLabel_present acc pk v2 h]
    rw [show lookupKey (indexIntoBucket acc pk k2 v2).store q = lookupKey acc.store q
      from by rw [indexIntoBucket_store]]
    exact hq
  · rw [indexOneLabel_absent acc pk v2 h]
    rw [show lookupKey (indexIntoBucket (addNewLabel acc k2 pk) pk k2 v2).store q
        = lookupKey (addNewLabel acc k2 pk).store q
      from by rw [indexIntoBucket_store]]
    exact addNewLabel_store_none acc k2 pk q hq

theorem indexLabels_store_none {Obj : Type} (ns : NamespaceState Obj)
    (pk g : String) (L : Labels) (q : String)
    (hq : lookupKey ns.store q = none) :
    lookupKey (indexLabels ns pk g L).store q = none := by
  unfold indexLabels
  refine foldl_invariant
    (fun s : NamespaceState Obj => lookupKey s.store q = none)
    (fun acc kv => indexOneLabel acc pk kv.1 kv.2) L (indexGuid ns pk g) ?_ ?_
  · show lookupKey ns.store q = none
    exact hq
  · intro s' a _ hp
    exact indexOneLabel_store_none s' pk a.1 a.2 q hp

theorem writeTarget_store {Obj : Type} (ns : NamespaceState Obj)
    (t : AliasTarget) (s : Finset String) :
    (writeTarget ns t s).store = ns.store := by
  cases t with
  | guidBucket g => rw [writeTarget_guid_def]
  | labelBucket k v =>
      cases hbm : lookupKey ns.label_index k with
      | none => rw [writeTarget_label_none ns k v s hbm]
      | some bm => rw [writeTarget_label_some ns k v s bm hbm]

theorem findLoop_store {Obj : Type} (labels : List (String × LabelValue)) :
    ∀ (ns : NamespaceState Obj) (acc : Option (AliasTarget × Finset String)),
    ((findLoop ns acc labels).2).store = ns.store := by
  induction labels with
  | nil => intro ns acc; rfl
  | cons kv rest ih =>
      obtain ⟨k, v⟩ := kv
      intro ns acc
      cases hb : bucketGet ns k v with
      | none =>
          rw [findLoop_step_skip ns acc k v rest hb]
          exact ih ns acc
      | some current =>
          cases acc with
          | none =>
              rw [findLoop_step_seed ns k v rest current hb]
              exact ih ns _
          | some p =>
              obtain ⟨t, matching⟩ := p
              rw [findLoop_step_narrow ns t matching k v rest current hb,
                ih _ _, writeTarget_store]

/-- `_find_primary_keys_by_labels` never changes the record store: its
mutations hit only the guid and label indices. -/
theorem find_store {Obj : Type} (ns : NamespaceState Obj)
    (gd : Option String) (L : Labels) :
    ((findPrimaryKeysByLabels ns gd L).2).store = ns.store := by
  cases gd with
  | none =>
      by_cases hL : L = []
      · subst hL
        unfold findPrimaryKeysByLabels
        rw [if_pos ⟨rfl, rfl⟩]
      · rw [find_none_def ns L hL]
        have h := findLoop_store L ns none
        cases hfl : findLoop ns none L with
        | mk o ns2 =>
            rw [hfl] at h
            cases o with
            | none => exact h
            | some m => exact h
  | some g =>
      cases hgi : lookupKey ns.guid_index g with
      | none => rw [find_guid_absent ns g L hgi]
      | some b =>
          rw [find_some_def_bucket ns g L b hgi]
          have h := findLoop_store L ns (some (.guidBucket g, b))
          cases hfl : findLoop ns (some (.guidBucket g, b)) L with
          | mk o ns2 =>
              rw [hfl] at h
              cases o with
              | none => exact h
              | some m => exact h

set_option maxHeartbeats 1600000 in
/-- C10: when `put_by_primary_key` inserts a record whose label map
contains a key `k` absent from the namespace's label index, every other
existing record `q` is modified: `q` is added to the new key's
`None`-valued bucket, `k -> None` is written into `q`'s stored labels
(its encrypted value and guid untouched), and a subsequent
`get_by_primary_key` on `q` returns a labels map with `k` mapped to
`None` — the write to one record is observable on the labels of all
others. -/
theorem C10_backfill_visibility {Obj : Type} (cfg : StoreConfig Obj)
    (st : StoreState Obj) (B : ValueDict Obj) (g : String) (L : Labels)
    (pk q k : String) (v : LabelValue) (nsArg : Option String)
    (ns : NamespaceState Obj) (mq : StoreModel Obj) (hv : HashedValueDict Obj)
    (hns : lookupKey st.namespaces (getNamespaceName cfg nsArg) = some ns)
    (hq : lookupKey ns.store q = some mq)
    (hqpk : q ≠ pk)
    (hpk : lookupKey ns.store pk = none)
    (habs : lookupKey ns.label_index k = none)
    (hkL : (k, v) ∈ L)
    (hnd : (L.map Prod.fst).Nodup)
    (hdec : Store.decryptValue cfg mq.encrypted_value = some hv) :
    ∃ ns',
      putByPrimaryKey cfg st B g L pk nsArg false
        = (.ok pk, setNs st (getNamespaceName cfg nsArg) ns')
      ∧ q ∈ bucketGetD ns' k LabelValue.vnone
      ∧ ∃ mq', lookupKey ns'.store q = some mq'
          ∧ lookupKey mq'.labels k = some LabelValue.vnone
          ∧ mq'.encrypted_value = mq.encrypted_value
          ∧ mq'.guid = mq.guid
          ∧ getByPrimaryKey cfg (setNs st (getNamespaceName cfg nsArg) ns') q nsArg
              = (.ok ⟨q, hv, mq'.labels, mq'.guid⟩,
                  setNs st (getNamespaceName cfg nsArg) ns') := by
  have hens : ensureNamespaceExists cfg st nsArg = (getNamespaceName cfg nsArg, st) := by
    unfold ensureNamespaceExists
    rw [if_pos (by rw [hns]; rfl)]
  have hfst : (ensureNamespaceExists cfg st nsArg).1 = getNamespaceName cfg nsArg := by
    rw [hens]
  have hsnd : (ensureNamespaceExists cfg st nsArg).2 = st := by
    rw [hens]
  have hget : ∀ (ns' : NamespaceState Obj) (mq' : StoreModel Obj),
      lookupKey ns'.store q = some mq' →
      mq'.encrypted_value = mq.encrypted_value →
      getByPrimaryKey cfg (setNs st (getNamespaceName cfg nsArg) ns') q nsArg
        = (.ok ⟨q, hv, mq'.labels, mq'.guid⟩,
            setNs st (getNamespaceName cfg nsArg) ns') := by
    intro ns' mq' hm henc
    have hlook : lookupKey (setNs st (getNamespaceName cfg nsArg) ns').namespaces
        (getNamespaceName cfg nsArg) = some ns' := lookupKey_setKey_self _ _ _
    simp only [getByPrimaryKey, getNamespaceChecked, hlook, Option.isSome_some,
      if_pos, hm, decryptModel, henc, hdec]
  obtain ⟨L1, L2, hL⟩ := List.append_of_mem hkL
  rw [hL, List.map_append, List.map_cons, List.nodup_append] at hnd
  obtain ⟨-, hnd2, hdisj⟩ := hnd
  have hk2 : k ∉ L2.map Prod.fst := (List.nodup_cons.mp hnd2).1
  have hk1 : k ∉ L1.map Prod.fst := fun h => hdisj h (List.mem_cons_self k _)
  set M := (⟨Store.encryptValue cfg B, L, g⟩ : StoreModel Obj) with hM
  set nsIns := ({ ns with store := setKey ns.store pk M } : NamespaceState Obj) with hnsIns
  set s0 := indexGuid nsIns pk g with hs0
  have hphase1 : lookupKey (L1.foldl
        (fun acc kv => indexOneLabel acc pk kv.1 kv.2) s0).label_index k = none
      ∧ ∃ m', lookupKey (L1.foldl
          (fun acc kv => indexOneLabel acc pk kv.1 kv.2) s0).store q = some m'
        ∧ m'.encrypted_value = mq.encrypted_value ∧ m'.guid = mq.guid := by
    refine foldl_invariant
      (fun s : NamespaceState Obj => lookupKey s.label_index k = none
        ∧ ∃ m', lookupKey s.store q = some m'
          ∧ m'.encrypted_value = mq.encrypted_value ∧ m'.guid = mq.guid)
      (fun acc kv => indexOneLabel acc pk kv.1 kv.2) L1 s0 ⟨?_, mq, ?_, rfl, rfl⟩ ?_
    · show lookupKey ns.label_index k = none
      exact habs
    · show lookupKey (setKey ns.store pk M) q = some mq
      rw [lookupKey_setKey_ne ns.store pk q M (fun he => hqpk he.symm)]
      exact hq
    · intro s' a ha hp
      obtain ⟨hlab, m', hm', henc', hguid'⟩ := hp
      have hak : k ≠ a.1 := by
        intro he
        exact hk1 (by rw [he]; exact List.mem_map_of_mem Prod.fst ha)
      refine ⟨?_, ?_⟩
      · show lookupKey (indexOneLabel s' pk a.1 a.2).label_index k = none
        rw [indexOneLabel_label_ne s' pk a.1 a.2 k hak]
        exact hlab
      · rcases indexOneLabel_store_other s' pk a.1 a.2 q m' hqpk hm' with h | ⟨-, h⟩
        · exact ⟨m', h, henc', hguid'⟩
        · exact ⟨_, h, henc', hguid'⟩
  obtain ⟨habs1, m1, hqm1, henc1, hguid1⟩ := hphase1
  have hs2store : lookupKey (indexOneLabel
        (L1.foldl (fun acc kv => indexOneLabel acc pk kv.1 kv.2) s0) pk k v).store q
      = some { m1 with labels := setKey m1.labels k LabelValue.vnone } := by
    rw [indexOneLabel_absent _ pk v (by rw [habs1]; simp)]
    have hst := indexIntoBucket_store
      (addNewLabel (L1.foldl (fun acc kv => indexOneLabel acc pk kv.1 kv.2) s0) k pk) pk k v
    rw [show lookupKey (indexIntoBucket
        (addNewLabel (L1.foldl (fun acc kv => indexOneLabel acc pk kv.1 kv.2) s0) k pk)
        pk k v).store q
      = lookupKey (addNewLabel
        (L1.foldl (fun acc kv => indexOneLabel acc pk kv.1 kv.2) s0) k pk).store q
      from by rw [hst]]
    exact addNewLabel_store_backfilled _ k pk q m1 hqpk hqm1
  have hs2bucket : q ∈ bucketGetD (indexOneLabel
        (L1.foldl (fun acc kv => indexOneLabel acc pk kv.1 kv.2) s0) pk k v)
      k LabelValue.vnone :=
    indexOneLabel_bucket_backfilled _ pk k v q hqpk (by rw [hqm1]; rfl) habs1
  have hphase3 : q ∈ bucketGetD (L2.foldl
        (fun acc kv => indexOneLabel acc pk kv.1 kv.2)
        (indexOneLabel
          (L1.foldl (fun acc kv => indexOneLabel acc pk kv.1 kv.2) s0) pk k v))
      k LabelValue.vnone
      ∧ ∃ m', lookupKey (L2.foldl
          (fun acc kv => indexOneLabel acc pk kv.1 kv.2)
          (indexOneLabel
            (L1.foldl (fun acc kv => indexOneLabel acc pk kv.1 kv.2) s0) pk k v)).store q
        = some m'
        ∧ lookupKey m'.labels k = some LabelValue.vnone
        ∧ m'.encrypted_value = mq.encrypted_value ∧ m'.guid = mq.guid := by
    refine foldl_invariant
      (fun s : NamespaceState Obj => q ∈ bucketGetD s k LabelValue.vnone
        ∧ ∃ m', lookupKey s.store q = some m'
          ∧ lookupKey m'.labels k = some LabelValue.vnone
          ∧ m'.encrypted_value = mq.encrypted_value ∧ m'.guid = mq.guid)
      (fun acc kv => indexOneLabel acc pk kv.1 kv.2) L2 _
      ⟨hs2bucket, { m1 with labels := setKey m1.labels k LabelValue.vnone },
        hs2store, lookupKey_setKey_self _ _ _, henc1, hguid1⟩ ?_
    intro s' a ha hp
    obtain ⟨hb, m', hm', hlk, henc', hguid'⟩ := hp
    have hak : k ≠ a.1 := by
      intro he
      exact hk2 (by rw [he]; exact List.mem_map_of_mem Prod.fst ha)
    refine ⟨indexOneLabel_bucket_mono s' pk a.1 a.2 k LabelValue.vnone q hb, ?_⟩
    rcases indexOneLabel_store_other s' pk a.1 a.2 q m' hqpk hm' with h | ⟨-, h⟩
    · exact ⟨m', h, hlk, henc', hguid'⟩
    · refine ⟨_, h, ?_, henc', hguid'⟩
      show lookupKey (setKey m'.labels a.1 LabelValue.vnone) k = some LabelValue.vnone
      rw [lookupKey_setKey_ne m'.labels a.1 k LabelValue.vnone hak.symm]
      exact hlk
  obtain ⟨hb3, m3, hm3, hlk3, henc3, hguid3⟩ := hphase3
  have hsplit : indexLabels nsIns pk g L
      = L2.foldl (fun acc kv => indexOneLabel acc pk kv.1 kv.2)
          (indexOneLabel
            (L1.foldl (fun acc kv => indexOneLabel acc pk kv.1 kv.2) s0) pk k v) := by
    rw [hL]
    unfold indexLabels
    rw [List.foldl_append, List.foldl_cons]
  refine ⟨indexLabels nsIns pk g L, ?_, ?_, ?_⟩
  · simp only [putByPrimaryKey, hfst, hsnd, hns, hpk, Option.isSome_none,
      Bool.false_eq_true, if_false, insertGivenPkey]
  · rw [hsplit]
    exact hb3
  · rw [hsplit]
    exact ⟨m3, hm3, hlk3, henc3, hguid3, hget _ m3 hm3 henc3⟩

/-- Witness for C10: a concrete insert whose new label key back-fills the
one other record in the namespace. -/
theorem C10_backfill_visibility_witness :
    lookupKey (⟨[("acme", ⟨[("q1", ⟨Store.encryptValue (⟨"K", [], "default", id, toString, id⟩ : StoreConfig Nat) ⟨7, 8, some 9, none⟩, [], "g0"⟩)], [], []⟩)], [], []⟩ : StoreState Nat).namespaces
        (getNamespaceName (⟨"K", [], "default", id, toString, id⟩ : StoreConfig Nat) (some "acme"))
      = some ⟨[("q1", ⟨Store.encryptValue (⟨"K", [], "default", id, toString, id⟩ : StoreConfig Nat) ⟨7, 8, some 9, none⟩, [], "g0"⟩)], [], []⟩
    ∧ ∃ ns',
      putByPrimaryKey (⟨"K", [], "default", id, toString, id⟩ : StoreConfig Nat)
          (⟨[("acme", ⟨[("q1", ⟨Store.encryptValue (⟨"K", [], "default", id, toString, id⟩ : StoreConfig Nat) ⟨7, 8, some 9, none⟩, [], "g0"⟩)], [], []⟩)], [], []⟩ : StoreState Nat)
          ⟨1, 2, none, none⟩ "slack" [("team", .vstr "eng")] "p2" (some "acme") false
        = (.ok "p2", setNs (⟨[("acme", ⟨[("q1", ⟨Store.encryptValue (⟨"K", [], "default", id, toString, id⟩ : StoreConfig Nat) ⟨7, 8, some 9, none⟩, [], "g0"⟩)], [], []⟩)], [], []⟩ : StoreState Nat)
            (getNamespaceName (⟨"K", [], "default", id, toString, id⟩ : StoreConfig Nat) (some "acme")) ns')
      ∧ "q1" ∈ bucketGetD ns' "team" LabelValue.vnone
      ∧ ∃ mq', lookupKey ns'.store "q1" = some mq'
          ∧ lookupKey mq'.labels "team" = some LabelValue.vnone
          ∧ mq'.encrypted_value
            = (⟨Store.encryptValue (⟨"K", [], "default", id, toString, id⟩ : StoreConfig Nat) ⟨7, 8, some 9, none⟩, [], "g0"⟩ : StoreModel Nat).encrypted_value
          ∧ mq'.guid = "g0"
          ∧ getByPrimaryKey (⟨"K", [], "default", id, toString, id⟩ : StoreConfig Nat)
              (setNs (⟨[("acme", ⟨[("q1", ⟨Store.encryptValue (⟨"K", [], "default", id, toString, id⟩ : StoreConfig Nat) ⟨7, 8, some 9, none⟩, [], "g0"⟩)], [], []⟩)], [], []⟩ : StoreState Nat)
                (getNamespaceName (⟨"K", [], "default", id, toString, id⟩ : StoreConfig Nat) (some "acme")) ns')
              "q1" (some "acme")
            = (.ok ⟨"q1", ⟨7, ⟨toString (8 : Nat)⟩, some 9, none⟩, mq'.labels, mq'.guid⟩,
                setNs (⟨[("acme", ⟨[("q1", ⟨Store.encryptValue (⟨"K", [], "default", id, toString, id⟩ : StoreConfig Nat) ⟨7, 8, some 9, none⟩, [], "g0"⟩)], [], []⟩)], [], []⟩ : StoreState Nat)
                  (getNamespaceName (⟨"K", [], "default", id, toString, id⟩ : StoreConfig Nat) (some "acme")) ns') :=
  ⟨by decide,
    C10_backfill_visibility (⟨"K", [], "default", id, toString, id⟩ : StoreConfig Nat)
      (⟨[("acme", ⟨[("q1", ⟨Store.encryptValue (⟨"K", [], "default", id, toString, id⟩ : StoreConfig Nat) ⟨7, 8, some 9, none⟩, [], "g0"⟩)], [], []⟩)], [], []⟩ : StoreState Nat)
      ⟨1, 2, none, none⟩ "slack" [("team", .vstr "eng")] "p2" "q1" "team"
      (.vstr "eng") (some "acme")
      ⟨[("q1", ⟨Store.encryptValue (⟨"K", [], "default", id, toString, id⟩ : StoreConfig Nat) ⟨7, 8, some 9, none⟩, [], "g0"⟩)], [], []⟩
      ⟨Store.encryptValue (⟨"K", [], "default", id, toString, id⟩ : StoreConfig Nat) ⟨7, 8, some 9, none⟩, [], "g0"⟩
      ⟨7, ⟨toString (8 : Nat)⟩, some 9, none⟩
      (by decide) (by decide) (by decide) (by decide) (by decide) (by decide)
      (by decide) (by decide)⟩

/-! ### `get_by_labels`: conflict, not-found and the single-match read -/

/-- A `put_by_primary_key` on a fresh primary key in an existing
namespace: store the encrypted model under that key and index it. -/
theorem put_insert_eq {Obj : Type} (cfg : StoreConfig Obj) (st : StoreState Obj)
    (B : ValueDict Obj) (g : String) (L : Labels) (pk : String)
    (nsArg : Option String) (ns : NamespaceState Obj)
    (hns : lookupKey st.namespaces (getNamespaceName cfg nsArg) = some ns)
    (hpk : lookupKey ns.store pk = none) :
    putByPrimaryKey cfg st B g L pk nsArg false
      = (.ok pk, setNs st (getNamespaceName cfg nsArg)
          (indexLabels { ns with store := setKey ns.store pk ⟨Store.encryptValue cfg B, L, g⟩ } pk g L)) := by
  have hens : ensureNamespaceExists cfg st nsArg = (getNamespaceName cfg nsArg, st) := by
    unfold ensureNamespaceExists
    rw [if_pos (by rw [hns]; rfl)]
  have hfst : (ensureNamespaceExists cfg st nsArg).1 = getNamespaceName cfg nsArg := by
    rw [hens]
  have hsnd : (ensureNamespaceExists cfg st nsArg).2 = st := by
    rw [hens]
  simp only [putByPrimaryKey, hfst, hsnd, hns, hpk, Option.isSome_none,
    Bool.false_eq_true, if_false, insertGivenPkey]

/-- When the namespace holds two distinct primary keys that sit in the
guid bucket of `g` and in every label bucket of `L`, `get_by_labels`
reports a conflict. -/
theorem getByLabels_conflict_of_two {Obj : Type} (cfg : StoreConfig Obj)
    (st : StoreState Obj) (g : String) (L : Labels) (nsArg : Option String)
    (ns : NamespaceState Obj) (pk1 pk2 : String) (hne : pk1 ≠ pk2)
    (hns : lookupKey st.namespaces (getNamespaceName cfg nsArg) = some ns)
    (b : Finset String)
    (hb : lookupKey ns.guid_index g = some b)
    (h1b : pk1 ∈ b) (h2b : pk2 ∈ b)
    (h1L : ∀ kv ∈ L, pk1 ∈ bucketGetD ns kv.1 kv.2)
    (h2L : ∀ kv ∈ L, pk2 ∈ bucketGetD ns kv.1 kv.2) :
    (getByLabels cfg st g L nsArg).1 = .error .conflict := by
  have hfr := find_guid_some ns g L b hb
  have hmem1 : pk1 ∈ (contributingBuckets ns L).foldl (· ∩ ·) b := by
    rw [mem_foldl_inter]
    refine ⟨h1b, ?_⟩
    intro c hc
    obtain ⟨kv, hkvL, hkvc⟩ := (mem_contributingBuckets ns L c).mp hc
    have h := h1L kv hkvL
    unfold bucketGetD at h
    rw [hkvc, Option.getD_some] at h
    exact h
  have hmem2 : pk2 ∈ (contributingBuckets ns L).foldl (· ∩ ·) b := by
    rw [mem_foldl_inter]
    refine ⟨h2b, ?_⟩
    intro c hc
    obtain ⟨kv, hkvL, hkvc⟩ := (mem_contributingBuckets ns L c).mp hc
    have h := h2L kv hkvL
    unfold bucketGetD at h
    rw [hkvc, Option.getD_some] at h
    exact h
  have hcard : 1 < ((contributingBuckets ns L).foldl (· ∩ ·) b).card :=
    Finset.one_lt_card.mpr ⟨pk1, hmem1, pk2, hmem2, hne⟩
  have hesm : ensureSingleMatch ((findPrimaryKeysByLabels ns (some g) L).1)
      = .error .conflict := by
    rw [hfr]
    unfold ensureSingleMatch
    rw [if_pos hcard]
  simp only [getByLabels, getNamespaceChecked, hns, Option.isSome_some, if_pos, hesm]

/-- Indexing a second distinct primary key under the same `(guid, labels)`
into a namespace that already has one makes `get_by_labels` conflict. -/
theorem setNs_insert_conflict {Obj : Type} (cfg : StoreConfig Obj)
    (st : StoreState Obj) (g : String) (L : Labels) (nsArg : Option String)
    (nsY : NamespaceState Obj) (pk1 pk2 : String) (hne : pk1 ≠ pk2)
    (hb1 : pk1 ∈ guidGetD nsY g)
    (hL1 : ∀ kv ∈ L, pk1 ∈ bucketGetD nsY kv.1 kv.2) :
    (getByLabels cfg (setNs st (getNamespaceName cfg nsArg) (indexLabels nsY pk2 g L))
        g L nsArg).1
      = .error .conflict := by
  refine getByLabels_conflict_of_two cfg _ g L nsArg (indexLabels nsY pk2 g L) pk1 pk2 hne
    (lookupKey_setKey_self _ _ _) (insert pk2 (guidGetD nsY g)) ?_ ?_ ?_ ?_ ?_
  · rw [indexLabels_guid]
    exact lookupKey_setKey_self _ _ _
  · exact Finset.mem_insert_of_mem hb1
  · exact Finset.mem_insert_self pk2 _
  · intro kv hkv
    exact indexLabels_bucket_mono nsY pk2 g L kv.1 kv.2 pk1 (hL1 kv hkv)
  · intro kv hkv
    obtain ⟨k0, v0⟩ := kv
    exact indexLabels_self_mem nsY pk2 g L k0 v0 hkv

/-- Two successive fresh-key inserts with the same `(guid, labels)` make
the subsequent `get_by_labels` conflict. -/
theorem insert_insert_conflict {Obj : Type} (cfg : StoreConfig Obj)
    (st : StoreState Obj) (g : String) (L : Labels) (nsArg : Option String)
    (ns : NamespaceState Obj) (B1 B2 : ValueDict Obj) (pk1 pk2 : String)
    (hns : lookupKey st.namespaces (getNamespaceName cfg nsArg) = some ns)
    (hpk1 : lookupKey ns.store pk1 = none)
    (hpk2 : lookupKey ns.store pk2 = none)
    (hne : pk1 ≠ pk2) :
    (getByLabels cfg
      (putByPrimaryKey cfg (putByPrimaryKey cfg st B1 g L pk1 nsArg false).2
        B2 g L pk2 nsArg false).2 g L nsArg).1 = .error .conflict := by
  have h1 : (putByPrimaryKey cfg st B1 g L pk1 nsArg false).2
      = setNs st (getNamespaceName cfg nsArg)
          (indexLabels { ns with store := setKey ns.store pk1 ⟨Store.encryptValue cfg B1, L, g⟩ } pk1 g L) := by
    rw [put_insert_eq cfg st B1 g L pk1 nsArg ns hns hpk1]
  rw [h1]
  have hlook1 : lookupKey (setNs st (getNamespaceName cfg nsArg)
      (indexLabels { ns with store := setKey ns.store pk1 ⟨Store.encryptValue cfg B1, L, g⟩ } pk1 g L)).namespaces
      (getNamespaceName cfg nsArg)
      = some (indexLabels { ns with store := setKey ns.store pk1 ⟨Store.encryptValue cfg B1, L, g⟩ } pk1 g L) :=
    lookupKey_setKey_self _ _ _
  have hpk2' : lookupKey (indexLabels { ns with store := setKey ns.store pk1 ⟨Store.encryptValue cfg B1, L, g⟩ } pk1 g L).store pk2 = none := by
    refine indexLabels_store_none _ pk1 g L pk2 ?_
    rw [show ({ ns with store := setKey ns.store pk1 (⟨Store.encryptValue cfg B1, L, g⟩ : StoreModel Obj) } : NamespaceState Obj).store
        = setKey ns.store pk1 ⟨Store.encryptValue cfg B1, L, g⟩ from rfl,
      lookupKey_setKey_ne ns.store pk1 pk2 _ hne]
    exact hpk2
  have h2 : (putByPrimaryKey cfg (setNs st (getNamespaceName cfg nsArg)
      (indexLabels { ns with store := setKey ns.store pk1 ⟨Store.encryptValue cfg B1, L, g⟩ } pk1 g L))
      B2 g L pk2 nsArg false).2
      = setNs (setNs st (getNamespaceName cfg nsArg)
          (indexLabels { ns with store := setKey ns.store pk1 ⟨Store.encryptValue cfg B1, L, g⟩ } pk1 g L))
        (getNamespaceName cfg nsArg)
        (indexLabels
          { (indexLabels { ns with store := setKey ns.store pk1 ⟨Store.encryptValue cfg B1, L, g⟩ } pk1 g L) with
            store := setKey (indexLabels { ns with store := setKey ns.store pk1 ⟨Store.encryptValue cfg B1, L, g⟩ } pk1 g L).store pk2 ⟨Store.encryptValue cfg B2, L, g⟩ }
          pk2 g L) := by
    rw [put_insert_eq cfg _ B2 g L pk2 nsArg _ hlook1 hpk2']
  rw [h2]
  refine setNs_insert_conflict cfg _ g L nsArg _ pk1 pk2 hne ?_ ?_
  · exact indexLabels_guid_self_mem
      { ns with store := setKey ns.store pk1 ⟨Store.encryptValue cfg B1, L, g⟩ } pk1 g L
  · intro kv hkv
    obtain ⟨k0, v0⟩ := kv
    exact indexLabels_self_mem
      { ns with store := setKey ns.store pk1 ⟨Store.encryptValue cfg B1, L, g⟩ } pk1 g L k0 v0 hkv

/-- C6: the multi-match invariant violation is detected at read time,
never silently resolved: after two distinct primary keys are inserted
into one namespace with the same guid and identical label maps,
`get_by_labels` with that `(guid, labels)` raises `ConflictException`;
`get_by_labels` raises `NotFoundException` when the lookup matches no
primary key; and when it matches exactly one stored record, the call
returns that record. -/
theorem C6_conflict_detection_at_read {Obj : Type} (cfg : StoreConfig Obj)
    (st : StoreState Obj) (g : String) (L : Labels) (nsArg : Option String)
    (ns : NamespaceState Obj)
    (hns : lookupKey st.namespaces (getNamespaceName cfg nsArg) = some ns) :
    (∀ (B1 B2 : ValueDict Obj) (pk1 pk2 : String),
      lookupKey ns.store pk1 = none → lookupKey ns.store pk2 = none → pk1 ≠ pk2 →
      (getByLabels cfg
        (putByPrimaryKey cfg (putByPrimaryKey cfg st B1 g L pk1 nsArg false).2
          B2 g L pk2 nsArg false).2 g L nsArg).1 = .error .conflict)
    ∧ ((findPrimaryKeysByLabels ns (some g) L).1 = ∅ →
      (getByLabels cfg st g L nsArg).1 = .error .notFound)
    ∧ (∀ (pk : String) (m : StoreModel Obj) (hv : HashedValueDict Obj),
      (findPrimaryKeysByLabels ns (some g) L).1 = {pk} →
      lookupKey ns.store pk = some m →
      Store.decryptValue cfg m.encrypted_value = some hv →
      (getByLabels cfg st g L nsArg).1 = .ok ⟨pk, hv, m.labels, m.guid⟩) := by
  refine ⟨?_, ?_, ?_⟩
  · intro B1 B2 pk1 pk2 hpk1 hpk2 hne
    exact insert_insert_conflict cfg st g L nsArg ns B1 B2 pk1 pk2 hns hpk1 hpk2 hne
  · intro hfind
    have hesm : ensureSingleMatch ((findPrimaryKeysByLabels ns (some g) L).1)
        = .error .notFound := by
      rw [hfind]
      unfold ensureSingleMatch
      rw [Finset.card_empty, if_neg (by decide), if_pos rfl]
    simp only [getByLabels, getNamespaceChecked, hns, Option.isSome_some, if_pos, hesm]
  · intro pk m hv hfind hm hdec
    have hesm : ensureSingleMatch ((findPrimaryKeysByLabels ns (some g) L).1)
        = .ok pk := by
      rw [hfind]
      unfold ensureSingleMatch
      rw [Finset.card_singleton, if_neg (by decide), if_neg (by decide), pickOne_singleton]
    have hmst : lookupKey ((findPrimaryKeysByLabels ns (some g) L).2).store pk = some m := by
      rw [find_store]
      exact hm
    simp only [getByLabels, getNamespaceChecked, hns, Option.isSome_some, if_pos, hesm,
      hmst, decryptModel, hdec]

/-- Witness for C6 on a concrete store with one existing namespace. -/
theorem C6_conflict_detection_at_read_witness :
    lookupKey (⟨[("acme", ⟨[], [], []⟩)], [], []⟩ : StoreState Nat).namespaces
        (getNamespaceName (⟨"K", [], "default", id, toString, id⟩ : StoreConfig Nat) (some "acme"))
      = some ⟨[], [], []⟩
    ∧ ((∀ (B1 B2 : ValueDict Nat) (pk1 pk2 : String),
      lookupKey (⟨[], [], []⟩ : NamespaceState Nat).store pk1 = none →
      lookupKey (⟨[], [], []⟩ : NamespaceState Nat).store pk2 = none → pk1 ≠ pk2 →
      (getByLabels (⟨"K", [], "default", id, toString, id⟩ : StoreConfig Nat)
        (putByPrimaryKey ⟨"K", [], "default", id, toString, id⟩
          (putByPrimaryKey ⟨"K", [], "default", id, toString, id⟩
            ⟨[("acme", ⟨[], [], []⟩)], [], []⟩ B1 "slack" [("team", .vstr "eng")] pk1
            (some "acme") false).2
          B2 "slack" [("team", .vstr "eng")] pk2 (some "acme") false).2
        "slack" [("team", .vstr "eng")] (some "acme")).1 = .error .conflict)
    ∧ ((findPrimaryKeysByLabels (⟨[], [], []⟩ : NamespaceState Nat)
          (some "slack") [("team", .vstr "eng")]).1 = ∅ →
      (getByLabels (⟨"K", [], "default", id, toString, id⟩ : StoreConfig Nat)
        ⟨[("acme", ⟨[], [], []⟩)], [], []⟩ "slack" [("team", .vstr "eng")]
        (some "acme")).1 = .error .notFound)
    ∧ (∀ (pk : String) (m : StoreModel Nat) (hv : HashedValueDict Nat),
      (findPrimaryKeysByLabels (⟨[], [], []⟩ : NamespaceState Nat)
          (some "slack") [("team", .vstr "eng")]).1 = {pk} →
      lookupKey (⟨[], [], []⟩ : NamespaceState Nat).store pk = some m →
      Store.decryptValue ⟨"K", [], "default", id, toString, id⟩ m.encrypted_value = some hv →
      (getByLabels (⟨"K", [], "default", id, toString, id⟩ : StoreConfig Nat)
        ⟨[("acme", ⟨[], [], []⟩)], [], []⟩ "slack" [("team", .vstr "eng")]
        (some "acme")).1 = .ok ⟨pk, hv, m.labels, m.guid⟩)) :=
  ⟨by decide,
    C6_conflict_detection_at_read (⟨"K", [], "default", id, toString, id⟩ : StoreConfig Nat)
      ⟨[("acme", ⟨[], [], []⟩)], [], []⟩ "slack" [("team", .vstr "eng")] (some "acme")
      ⟨[], [], []⟩ (by decide)⟩

/-! ### `put_by_labels`: the label-keyed upsert -/

/-- After a seeded search, the guid bucket holds exactly the result set —
the in-place narrowing of `_find_primary_keys_by_labels`. -/
theorem find_guid_lookup_after {Obj : Type} (ns : NamespaceState Obj) (g : String)
    (L : Labels) (b0 : Finset String)
    (hb : lookupKey ns.guid_index g = some b0) :
    lookupKey ((findPrimaryKeysByLabels ns (some g) L).2).guid_index g
      = some ((findPrimaryKeysByLabels ns (some g) L).1) := by
  have hfr := find_guid_some ns g L b0 hb
  rw [hfr]
  show lookupKey (setKey ns.guid_index g ((contributingBuckets ns L).foldl (· ∩ ·) b0)) g
    = some ((contributingBuckets ns L).foldl (· ∩ ·) b0)
  exact lookupKey_setKey_self _ _ _

/-- When the search comes back empty, the guid bucket it leaves behind is
empty as well. -/
theorem find_empty_guid_bucket {Obj : Type} (ns : NamespaceState Obj) (g : String)
    (L : Labels) (h : (findPrimaryKeysByLabels ns (some g) L).1 = ∅) :
    guidGetD ((findPrimaryKeysByLabels ns (some g) L).2) g = ∅ := by
  cases hb : lookupKey ns.guid_index g with
  | none =>
      rw [find_guid_absent ns g L hb]
      show (lookupKey ns.guid_index g).getD ∅ = ∅
      rw [hb]
      rfl
  | some b0 =>
      have hl := find_guid_lookup_after ns g L b0 hb
      unfold guidGetD
      rw [hl, h]
      rfl

/-- Searching for `(guid, labels)` right after indexing a record under
them, in a namespace whose guid bucket is empty, matches exactly that
record. -/
theorem find_indexLabels_singleton {Obj : Type} (ns0 : NamespaceState Obj)
    (f g : String) (L : Labels) (hg : guidGetD ns0 g = ∅) :
    (findPrimaryKeysByLabels (indexLabels ns0 f g L) (some g) L).1 = {f} := by
  have hb : lookupKey (indexLabels ns0 f g L).guid_index g
      = some (insert f (guidGetD ns0 g)) := by
    rw [indexLabels_guid]
    exact lookupKey_setKey_self _ _ _
  have hfr := find_guid_some (indexLabels ns0 f g L) g L _ hb
  rw [hfr]
  show (contributingBuckets (indexLabels ns0 f g L) L).foldl (· ∩ ·)
      (insert f (guidGetD ns0 g)) = {f}
  apply Finset.ext
  intro q
  rw [mem_foldl_inter, Finset.mem_singleton]
  constructor
  · rintro ⟨hqb, -⟩
    rw [hg] at hqb
    rcases Finset.mem_insert.mp hqb with he | hm
    · exact he
    · exact absurd hm (Finset.not_mem_empty q)
  · intro he
    subst he
    refine ⟨Finset.mem_insert_self q _, ?_⟩
    intro c hc
    obtain ⟨kv, hkvL, hkvc⟩ := (mem_contributingBuckets _ L c).mp hc
    obtain ⟨k0, v0⟩ := kv
    have h := indexLabels_self_mem ns0 q g L k0 v0 hkvL
    unfold bucketGetD at h
    rw [hkvc, Option.getD_some] at h
    exact h

theorem deindexOne_guid {Obj : Type} (pk : String) (acc : NamespaceState Obj)
    (kv : String × LabelValue) : (deindexOne pk acc kv).guid_index = acc.guid_index := by
  unfold deindexOne
  cases h1 : lookupKey acc.label_index kv.1 with
  | none => rfl
  | some bm =>
      simp only [h1]
      cases h2 : lookupKey bm kv.2 with
      | none => rfl
      | some b =>
          simp only [h2]
          split <;> split <;> rfl

/-- Deindexing the only member of a guid bucket removes the bucket. -/
theorem deindexLabels_guid_removed {Obj : Type} (X : NamespaceState Obj)
    (f g : String) (ls : Labels)
    (hb : lookupKey X.guid_index g = some {f})
    (hnodup : (keysOf X.guid_index).Nodup) :
    lookupKey (deindexLabels X f g ls).guid_index g = none := by
  simp only [deindexLabels, hb, Finset.erase_singleton, if_true]
  refine foldl_invariant
    (fun s : NamespaceState Obj => lookupKey s.guid_index g = none)
    (deindexOne f) ls _ ?_ ?_
  · show lookupKey (removeKey X.guid_index g) g = none
    exact lookupKey_removeKey_self _ _ hnodup
  · intro s' a _ hp
    rw [deindexOne_guid]
    exact hp

/-- The search keeps the guid index free of duplicate keys. -/
theorem find_guid_index_nodup {Obj : Type} (ns : NamespaceState Obj) (g : String)
    (L : Labels) (h : (keysOf ns.guid_index).Nodup) :
    (keysOf ((findPrimaryKeysByLabels ns (some g) L).2).guid_index).Nodup := by
  cases hb : lookupKey ns.guid_index g with
  | none =>
      rw [find_guid_absent ns g L hb]
      exact h
  | some b0 =>
      rw [find_guid_some ns g L b0 hb]
      exact nodup_keysOf_setKey _ _ _ h

/-- `put_by_labels` with no matching record: insert under the freshly
drawn primary key. -/
theorem putByLabels_no_match {Obj : Type} (cfg : StoreConfig Obj) (st : StoreState Obj)
    (B : ValueDict Obj) (g : String) (L : Labels) (nsArg : Option String)
    (ns : NamespaceState Obj) (f : String) (rest : List String)
    (hns : lookupKey st.namespaces (getNamespaceName cfg nsArg) = some ns)
    (hfind : (findPrimaryKeysByLabels ns (some g) L).1 = ∅)
    (hsup : st.uuidSupply = f :: rest)
    (hf : lookupKey ns.store f = none) :
    putByLabels cfg st B g L nsArg
      = (.ok f, setNs { setNs st (getNamespaceName cfg nsArg) ((findPrimaryKeysByLabels ns (some g) L).2) with uuidSupply := rest }
          (getNamespaceName cfg nsArg)
          (indexLabels { ((findPrimaryKeysByLabels ns (some g) L).2) with store := setKey ((findPrimaryKeysByLabels ns (some g) L).2).store f ⟨Store.encryptValue cfg B, L, g⟩ } f g L)) := by
  have hens : ensureNamespaceExists cfg st nsArg = (getNamespaceName cfg nsArg, st) := by
    unfold ensureNamespaceExists
    rw [if_pos (by rw [hns]; rfl)]
  have hfst : (ensureNamespaceExists cfg st nsArg).1 = getNamespaceName cfg nsArg := by
    rw [hens]
  have hsnd : (ensureNamespaceExists cfg st nsArg).2 = st := by
    rw [hens]
  have hesm : ensureSingleOrNoMatch ((findPrimaryKeysByLabels ns (some g) L).1) = .ok none := by
    rw [hfind]
    unfold ensureSingleOrNoMatch
    rw [Finset.card_empty, if_neg (by decide), if_pos rfl]
  have hlk : lookupKey (setKey st.namespaces (getNamespaceName cfg nsArg) ((findPrimaryKeysByLabels ns (some g) L).2)) (getNamespaceName cfg nsArg)
      = some ((findPrimaryKeysByLabels ns (some g) L).2) := lookupKey_setKey_self _ _ _
  have hffr : lookupKey ((findPrimaryKeysByLabels ns (some g) L).2).store f = none := by
    rw [find_store]
    exact hf
  simp only [putByLabels, hfst, hsnd, hns, hesm, insertNewPkey, setNs, hsup, hlk, hffr,
    Option.isSome_none, Bool.false_eq_true, if_false]

/-- `put_by_labels` whose single match is the falsy empty-string primary
key: Python's `if existing_key:` sends it down the insert branch, so the
code stores a duplicate under a fresh primary key instead of updating. -/
theorem putByLabels_empty_match {Obj : Type} (cfg : StoreConfig Obj) (st : StoreState Obj)
    (B : ValueDict Obj) (g : String) (L : Labels) (nsArg : Option String)
    (ns : NamespaceState Obj) (f : String) (rest : List String)
    (hns : lookupKey st.namespaces (getNamespaceName cfg nsArg) = some ns)
    (hfind : (findPrimaryKeysByLabels ns (some g) L).1 = {""})
    (hsup : st.uuidSupply = f :: rest)
    (hf : lookupKey ns.store f = none) :
    putByLabels cfg st B g L nsArg
      = (.ok f, setNs { setNs st (getNamespaceName cfg nsArg) ((findPrimaryKeysByLabels ns (some g) L).2) with uuidSupply := rest }
          (getNamespaceName cfg nsArg)
          (indexLabels { ((findPrimaryKeysByLabels ns (some g) L).2) with store := setKey ((findPrimaryKeysByLabels ns (some g) L).2).store f ⟨Store.encryptValue cfg B, L, g⟩ } f g L)) := by
  have hens : ensureNamespaceExists cfg st nsArg = (getNamespaceName cfg nsArg, st) := by
    unfold ensureNamespaceExists
    rw [if_pos (by rw [hns]; rfl)]
  have hfst : (ensureNamespaceExists cfg st nsArg).1 = getNamespaceName cfg nsArg := by
    rw [hens]
  have hsnd : (ensureNamespaceExists cfg st nsArg).2 = st := by
    rw [hens]
  have hesm : ensureSingleOrNoMatch ((findPrimaryKeysByLabels ns (some g) L).1)
      = .ok (some "") := by
    rw [hfind]
    unfold ensureSingleOrNoMatch
    rw [Finset.card_singleton, if_neg (by decide), if_neg (by decide), pickOne_singleton]
  have hlk : lookupKey (setKey st.namespaces (getNamespaceName cfg nsArg) ((findPrimaryKeysByLabels ns (some g) L).2)) (getNamespaceName cfg nsArg)
      = some ((findPrimaryKeysByLabels ns (some g) L).2) := lookupKey_setKey_self _ _ _
  have hffr : lookupKey ((findPrimaryKeysByLabels ns (some g) L).2).store f = none := by
    rw [find_store]
    exact hf
  simp only [putByLabels, hfst, hsnd, hns, hesm]
  rw [if_pos trivial]
  simp only [insertNewPkey, setNs, hsup, hlk, hffr,
    Option.isSome_none, Bool.false_eq_true, if_false]

/-- `put_by_labels` with exactly one matching record: update it in place
and return its primary key. -/
theorem putByLabels_one_match {Obj : Type} (cfg : StoreConfig Obj) (st : StoreState Obj)
    (B : ValueDict Obj) (g : String) (L : Labels) (nsArg : Option String)
    (ns : NamespaceState Obj) (pk : String) (cur : StoreModel Obj)
    (hns : lookupKey st.namespaces (getNamespaceName cfg nsArg) = some ns)
    (hfind : (findPrimaryKeysByLabels ns (some g) L).1 = {pk})
    (hcur : lookupKey ns.store pk = some cur)
    (hguid : cur.guid = g)
    (hpkne : pk ≠ "") :
    putByLabels cfg st B g L nsArg
      = (.ok pk,
         setNs (setNs st (getNamespaceName cfg nsArg) ((findPrimaryKeysByLabels ns (some g) L).2)) (getNamespaceName cfg nsArg)
           (indexLabels { (deindexLabels ((findPrimaryKeysByLabels ns (some g) L).2) pk g cur.labels) with store := setKey (deindexLabels ((findPrimaryKeysByLabels ns (some g) L).2) pk g cur.labels).store pk ⟨Store.encryptValue cfg B, L, g⟩ } pk g L)) := by
  have hens : ensureNamespaceExists cfg st nsArg = (getNamespaceName cfg nsArg, st) := by
    unfold ensureNamespaceExists
    rw [if_pos (by rw [hns]; rfl)]
  have hfst : (ensureNamespaceExists cfg st nsArg).1 = getNamespaceName cfg nsArg := by
    rw [hens]
  have hsnd : (ensureNamespaceExists cfg st nsArg).2 = st := by
    rw [hens]
  have hesm : ensureSingleOrNoMatch ((findPrimaryKeysByLabels ns (some g) L).1)
      = .ok (some pk) := by
    rw [hfind]
    unfold ensureSingleOrNoMatch
    rw [Finset.card_singleton, if_neg (by decide), if_neg (by decide), pickOne_singleton]
  have hcur' : lookupKey ((findPrimaryKeysByLabels ns (some g) L).2).store pk = some cur := by
    rw [find_store]
    exact hcur
  have hupd : updateExistingPkey ((findPrimaryKeysByLabels ns (some g) L).2) pk ⟨Store.encryptValue cfg B, L, g⟩
      = .ok (pk, indexLabels { (deindexLabels ((findPrimaryKeysByLabels ns (some g) L).2) pk g cur.labels) with store := setKey (deindexLabels ((findPrimaryKeysByLabels ns (some g) L).2) pk g cur.labels).store pk ⟨Store.encryptValue cfg B, L, g⟩ } pk g L) := by
    simp only [updateExistingPkey, hcur']
    rw [if_neg (show ¬(cur.guid ≠ g) from fun h => h hguid)]
  simp only [putByLabels, hfst, hsnd, hns, hesm, hupd]
  rw [if_neg hpkne]

/-- `put_by_labels` with more than one matching record: conflict. -/
theorem putByLabels_many_match {Obj : Type} (cfg : StoreConfig Obj) (st : StoreState Obj)
    (B : ValueDict Obj) (g : String) (L : Labels) (nsArg : Option String)
    (ns : NamespaceState Obj)
    (hns : lookupKey st.namespaces (getNamespaceName cfg nsArg) = some ns)
    (hcard : 1 < ((findPrimaryKeysByLabels ns (some g) L).1).card) :
    (putByLabels cfg st B g L nsArg).1 = .error .conflict := by
  have hens : ensureNamespaceExists cfg st nsArg = (getNamespaceName cfg nsArg, st) := by
    unfold ensureNamespaceExists
    rw [if_pos (by rw [hns]; rfl)]
  have hfst : (ensureNamespaceExists cfg st nsArg).1 = getNamespaceName cfg nsArg := by
    rw [hens]
  have hsnd : (ensureNamespaceExists cfg st nsArg).2 = st := by
    rw [hens]
  have hesm : ensureSingleOrNoMatch ((findPrimaryKeysByLabels ns (some g) L).1)
      = .error .conflict := by
    unfold ensureSingleOrNoMatch
    rw [if_pos hcard]
  simp only [putByLabels, hfst, hsnd, hns, hesm]

/-- The second `put_by_labels` with the same `(guid, labels)`: it finds
exactly the record the first call inserted, updates it in place and
returns the same primary key, leaving exactly one matching record. -/
theorem upsert_second_call {Obj : Type} (cfg : StoreConfig Obj) (st1 : StoreState Obj)
    (B2 : ValueDict Obj) (g : String) (L : Labels) (nsArg : Option String)
    (ns0 : NamespaceState Obj) (f : String) (M1 : StoreModel Obj)
    (hg0 : guidGetD ns0 g = ∅)
    (hM1guid : M1.guid = g)
    (hfne : f ≠ "")
    (hnodup : (keysOf ns0.guid_index).Nodup)
    (hns1 : lookupKey st1.namespaces (getNamespaceName cfg nsArg)
        = some (indexLabels { ns0 with store := setKey ns0.store f M1 } f g L)) :
    (putByLabels cfg st1 B2 g L nsArg).1 = .ok f
    ∧ ∃ nsF, lookupKey ((putByLabels cfg st1 B2 g L nsArg).2).namespaces (getNamespaceName cfg nsArg) = some nsF
        ∧ (findPrimaryKeysByLabels nsF (some g) L).1 = {f}
        ∧ lookupKey nsF.store f = some ⟨Store.encryptValue cfg B2, L, g⟩ := by
  have hfind2 : (findPrimaryKeysByLabels (indexLabels { ns0 with store := setKey ns0.store f M1 } f g L) (some g) L).1 = {f} := by
    refine find_indexLabels_singleton _ f g L ?_
    exact hg0
  have hcur1 : lookupKey (indexLabels { ns0 with store := setKey ns0.store f M1 } f g L).store f = some M1 := by
    rw [indexLabels_store_self]
    exact lookupKey_setKey_self _ _ _
  have h2 := putByLabels_one_match cfg st1 B2 g L nsArg
    (indexLabels { ns0 with store := setKey ns0.store f M1 } f g L) f M1 hns1 hfind2 hcur1
    hM1guid hfne
  have hbNS1 : lookupKey (indexLabels { ns0 with store := setKey ns0.store f M1 } f g L).guid_index g
      = some (insert f (guidGetD ({ ns0 with store := setKey ns0.store f M1 } : NamespaceState Obj) g)) := by
    rw [indexLabels_guid]
    exact lookupKey_setKey_self _ _ _
  have hFR2 : lookupKey ((findPrimaryKeysByLabels (indexLabels { ns0 with store := setKey ns0.store f M1 } f g L) (some g) L).2).guid_index g = some {f} := by
    rw [find_guid_lookup_after _ g L _ hbNS1, hfind2]
  have hndNS1 : (keysOf (indexLabels { ns0 with store := setKey ns0.store f M1 } f g L).guid_index).Nodup := by
    rw [indexLabels_guid]
    exact nodup_keysOf_setKey _ _ _ hnodup
  have hndX : (keysOf ((findPrimaryKeysByLabels (indexLabels { ns0 with store := setKey ns0.store f M1 } f g L) (some g) L).2).guid_index).Nodup :=
    find_guid_index_nodup _ g L hndNS1
  have hdd : lookupKey (deindexLabels ((findPrimaryKeysByLabels (indexLabels { ns0 with store := setKey ns0.store f M1 } f g L) (some g) L).2) f g M1.labels).guid_index g = none :=
    deindexLabels_guid_removed _ f g M1.labels hFR2 hndX
  constructor
  · rw [h2]
  refine ⟨indexLabels { (deindexLabels ((findPrimaryKeysByLabels (indexLabels { ns0 with store := setKey ns0.store f M1 } f g L) (some g) L).2) f g M1.labels) with store := setKey (deindexLabels ((findPrimaryKeysByLabels (indexLabels { ns0 with store := setKey ns0.store f M1 } f g L) (some g) L).2) f g M1.labels).store f ⟨Store.encryptValue cfg B2, L, g⟩ } f g L, ?_, ?_, ?_⟩
  · rw [h2]
    exact lookupKey_setKey_self _ _ _
  · refine find_indexLabels_singleton _ f g L ?_
    show guidGetD (deindexLabels ((findPrimaryKeysByLabels (indexLabels { ns0 with store := setKey ns0.store f M1 } f g L) (some g) L).2) f g M1.labels) g = ∅
    unfold guidGetD
    rw [hdd]
    rfl
  · rw [indexLabels_store_self]
    exact lookupKey_setKey_self _ _ _

/-- **C7** (amended): `put_by_labels` is a label-keyed upsert up to
Python truthiness of the matched key.  With no record matching
`(guid, labels)` it inserts under the freshly drawn primary key, and a
second call with the same `(guid, labels)` returns the same (non-empty,
freshly drawn) primary key, after which the namespace holds exactly one
matching record (carrying the second call's value); with exactly one
match whose primary key is truthy (non-empty) it updates that record in
place and returns its key; with more than one match it raises
`ConflictException`; but a single match whose primary key is the empty
string is falsy under `if existing_key:`, so the code inserts a
duplicate under a fresh key instead of updating (last conjunct). -/
theorem C7_put_by_labels_upsert {Obj : Type} (cfg : StoreConfig Obj) (st : StoreState Obj)
    (g : String) (L : Labels) (nsArg : Option String) (ns : NamespaceState Obj)
    (hns : lookupKey st.namespaces (getNamespaceName cfg nsArg) = some ns) :
    (∀ (B1 B2 : ValueDict Obj) (f : String) (rest : List String),
      (findPrimaryKeysByLabels ns (some g) L).1 = ∅ →
      st.uuidSupply = f :: rest →
      lookupKey ns.store f = none →
      f ≠ "" →
      (keysOf ns.guid_index).Nodup →
      (putByLabels cfg st B1 g L nsArg).1 = .ok f
      ∧ (putByLabels cfg (putByLabels cfg st B1 g L nsArg).2 B2 g L nsArg).1 = .ok f
      ∧ ∃ nsF, lookupKey ((putByLabels cfg (putByLabels cfg st B1 g L nsArg).2 B2 g L nsArg).2).namespaces (getNamespaceName cfg nsArg) = some nsF
          ∧ (findPrimaryKeysByLabels nsF (some g) L).1 = {f}
          ∧ lookupKey nsF.store f = some ⟨Store.encryptValue cfg B2, L, g⟩)
    ∧ (∀ (B : ValueDict Obj) (pk : String) (cur : StoreModel Obj),
      (findPrimaryKeysByLabels ns (some g) L).1 = {pk} →
      lookupKey ns.store pk = some cur → cur.guid = g → pk ≠ "" →
      (putByLabels cfg st B g L nsArg).1 = .ok pk)
    ∧ (∀ B : ValueDict Obj,
      1 < ((findPrimaryKeysByLabels ns (some g) L).1).card →
      (putByLabels cfg st B g L nsArg).1 = .error .conflict)
    ∧ (∀ (B : ValueDict Obj) (f : String) (rest : List String),
      (findPrimaryKeysByLabels ns (some g) L).1 = {""} →
      st.uuidSupply = f :: rest →
      lookupKey ns.store f = none →
      (putByLabels cfg st B g L nsArg).1 = .ok f) := by
  refine ⟨?_, ?_, ?_, ?_⟩
  · intro B1 B2 f rest hfind hsup hf hfne hgnd
    have h1 := putByLabels_no_match cfg st B1 g L nsArg ns f rest hns hfind hsup hf
    have hns1 : lookupKey ((putByLabels cfg st B1 g L nsArg).2).namespaces (getNamespaceName cfg nsArg)
        = some (indexLabels { ((findPrimaryKeysByLabels ns (some g) L).2) with store := setKey ((findPrimaryKeysByLabels ns (some g) L).2).store f ⟨Store.encryptValue cfg B1, L, g⟩ } f g L) := by
      rw [h1]
      exact lookupKey_setKey_self _ _ _
    have hsecond := upsert_second_call cfg ((putByLabels cfg st B1 g L nsArg).2) B2 g L nsArg
      ((findPrimaryKeysByLabels ns (some g) L).2) f ⟨Store.encryptValue cfg B1, L, g⟩
      (find_empty_guid_bucket ns g L hfind) rfl hfne (find_guid_index_nodup ns g L hgnd) hns1
    exact ⟨by rw [h1], hsecond.1, hsecond.2⟩
  · intro B pk cur hfind hcur hguid hpkne
    rw [putByLabels_one_match cfg st B g L nsArg ns pk cur hns hfind hcur hguid hpkne]
  · intro B hcard
    exact putByLabels_many_match cfg st B g L nsArg ns hns hcard
  · intro B f rest hfind hsup hf
    rw [putByLabels_empty_match cfg st B g L nsArg ns f rest hns hfind hsup hf]

/-- Counterexample to the original C7: a namespace holding one record
stored under the empty-string primary key.  `put_by_labels` with that
record's exact `(guid, labels)` finds exactly one match — the empty
string — but Python's `if existing_key:` treats it as falsy, so the call
returns a fresh uuid and the store ends up with two records instead of
the matched record updated in place. -/
theorem C7_counterexample :
    (findPrimaryKeysByLabels
        ((lookupKey (putByPrimaryKey (⟨"K", [], "default", id, toString, id⟩ : StoreConfig Nat)
            ⟨[("acme", ⟨[], [], []⟩)], [], ["u1"]⟩ ⟨1, 2, none, none⟩ "slack"
            [("team", .vstr "eng")] "" (some "acme") false).2.namespaces "acme").getD ⟨[], [], []⟩)
        (some "slack") [("team", .vstr "eng")]).1 = {""}
    ∧ (putByLabels (⟨"K", [], "default", id, toString, id⟩ : StoreConfig Nat)
        (putByPrimaryKey (⟨"K", [], "default", id, toString, id⟩ : StoreConfig Nat)
          ⟨[("acme", ⟨[], [], []⟩)], [], ["u1"]⟩ ⟨1, 2, none, none⟩ "slack"
          [("team", .vstr "eng")] "" (some "acme") false).2
        ⟨3, 4, none, none⟩ "slack" [("team", .vstr "eng")] (some "acme")).1 = .ok "u1"
    ∧ ("u1" : String) ≠ ""
    ∧ (lookupKey ((lookupKey (putByLabels (⟨"K", [], "default", id, toString, id⟩ : StoreConfig Nat)
          (putByPrimaryKey (⟨"K", [], "default", id, toString, id⟩ : StoreConfig Nat)
            ⟨[("acme", ⟨[], [], []⟩)], [], ["u1"]⟩ ⟨1, 2, none, none⟩ "slack"
            [("team", .vstr "eng")] "" (some "acme") false).2
          ⟨3, 4, none, none⟩ "slack" [("team", .vstr "eng")] (some "acme")).2.namespaces
          "acme").getD ⟨[], [], []⟩).store "").isSome = true
    ∧ (lookupKey ((lookupKey (putByLabels (⟨"K", [], "default", id, toString, id⟩ : StoreConfig Nat)
          (putByPrimaryKey (⟨"K", [], "default", id, toString, id⟩ : StoreConfig Nat)
            ⟨[("acme", ⟨[], [], []⟩)], [], ["u1"]⟩ ⟨1, 2, none, none⟩ "slack"
            [("team", .vstr "eng")] "" (some "acme") false).2
          ⟨3, 4, none, none⟩ "slack" [("team", .vstr "eng")] (some "acme")).2.namespaces
          "acme").getD ⟨[], [], []⟩).store "u1").isSome = true := by
  refine ⟨by decide, by decide, by decide, by decide, by decide⟩

/-- Witness for C7 on a concrete store with an existing empty namespace
and a two-element uuid supply. -/
theorem C7_put_by_labels_upsert_witness :
    lookupKey (⟨[("acme", ⟨[], [], []⟩)], [], ["u1", "u2"]⟩ : StoreState Nat).namespaces
        (getNamespaceName (⟨"K", [], "default", id, toString, id⟩ : StoreConfig Nat) (some "acme"))
      = some ⟨[], [], []⟩
    ∧ ((∀ (B1 B2 : ValueDict Nat) (f : String) (rest : List String),
      (findPrimaryKeysByLabels (⟨[], [], []⟩ : NamespaceState Nat)
          (some "slack") [("team", .vstr "eng")]).1 = ∅ →
      (⟨[("acme", ⟨[], [], []⟩)], [], ["u1", "u2"]⟩ : StoreState Nat).uuidSupply = f :: rest →
      lookupKey (⟨[], [], []⟩ : NamespaceState Nat).store f = none →
      f ≠ "" →
      (keysOf (⟨[], [], []⟩ : NamespaceState Nat).guid_index).Nodup →
      (putByLabels (⟨"K", [], "default", id, toString, id⟩ : StoreConfig Nat)
        ⟨[("acme", ⟨[], [], []⟩)], [], ["u1", "u2"]⟩ B1 "slack" [("team", .vstr "eng")]
        (some "acme")).1 = .ok f
      ∧ (putByLabels (⟨"K", [], "default", id, toString, id⟩ : StoreConfig Nat)
          (putByLabels (⟨"K", [], "default", id, toString, id⟩ : StoreConfig Nat)
            ⟨[("acme", ⟨[], [], []⟩)], [], ["u1", "u2"]⟩ B1 "slack"
            [("team", .vstr "eng")] (some "acme")).2
          B2 "slack" [("team", .vstr "eng")] (some "acme")).1 = .ok f
      ∧ ∃ nsF, lookupKey ((putByLabels (⟨"K", [], "default", id, toString, id⟩ : StoreConfig Nat)
            (putByLabels (⟨"K", [], "default", id, toString, id⟩ : StoreConfig Nat)
              ⟨[("acme", ⟨[], [], []⟩)], [], ["u1", "u2"]⟩ B1 "slack"
              [("team", .vstr "eng")] (some "acme")).2
            B2 "slack" [("team", .vstr "eng")] (some "acme")).2).namespaces
            (getNamespaceName (⟨"K", [], "default", id, toString, id⟩ : StoreConfig Nat) (some "acme")) = some nsF
          ∧ (findPrimaryKeysByLabels nsF (some "slack") [("team", .vstr "eng")]).1 = {f}
          ∧ lookupKey nsF.store f
            = some ⟨Store.encryptValue (⟨"K", [], "default", id, toString, id⟩ : StoreConfig Nat) B2,
                [("team", .vstr "eng")], "slack"⟩)
    ∧ (∀ (B : ValueDict Nat) (pk : String) (cur : StoreModel Nat),
      (findPrimaryKeysByLabels (⟨[], [], []⟩ : NamespaceState Nat)
          (some "slack") [("team", .vstr "eng")]).1 = {pk} →
      lookupKey (⟨[], [], []⟩ : NamespaceState Nat).store pk = some cur → cur.guid = "slack" →
      pk ≠ "" →
      (putByLabels (⟨"K", [], "default", id, toString, id⟩ : StoreConfig Nat)
        ⟨[("acme", ⟨[], [], []⟩)], [], ["u1", "u2"]⟩ B "slack" [("team", .vstr "eng")]
        (some "acme")).1 = .ok pk)
    ∧ (∀ B : ValueDict Nat,
      1 < ((findPrimaryKeysByLabels (⟨[], [], []⟩ : NamespaceState Nat)
          (some "slack") [("team", .vstr "eng")]).1).card →
      (putByLabels (⟨"K", [], "default", id, toString, id⟩ : StoreConfig Nat)
        ⟨[("acme", ⟨[], [], []⟩)], [], ["u1", "u2"]⟩ B "slack" [("team", .vstr "eng")]
        (some "acme")).1 = .error .conflict)
    ∧ (∀ (B : ValueDict Nat) (f : String) (rest : List String),
      (findPrimaryKeysByLabels (⟨[], [], []⟩ : NamespaceState Nat)
          (some "slack") [("team", .vstr "eng")]).1 = {""} →
      (⟨[("acme", ⟨[], [], []⟩)], [], ["u1", "u2"]⟩ : StoreState Nat).uuidSupply = f :: rest →
      lookupKey (⟨[], [], []⟩ : NamespaceState Nat).store f = none →
      (putByLabels (⟨"K", [], "default", id, toString, id⟩ : StoreConfig Nat)
        ⟨[("acme", ⟨[], [], []⟩)], [], ["u1", "u2"]⟩ B "slack" [("team", .vstr "eng")]
        (some "acme")).1 = .ok f)) :=
  ⟨by decide,
    C7_put_by_labels_upsert (⟨"K", [], "default", id, toString, id⟩ : StoreConfig Nat)
      ⟨[("acme", ⟨[], [], []⟩)], [], ["u1", "u2"]⟩ "slack" [("team", .vstr "eng")]
      (some "acme") ⟨[], [], []⟩ (by decide)⟩

end Ilpas
